import Mathlib

/-!
Shallow embedding of the DIOT tester core (`src/diot/channel.py`, `src/diot/cards.py`,
`src/diot/manager.py`, `src/diot/monitor.py`) and verification of the specification
claims about it.  Python floats are modelled as `ℚ`, Python ints as `ℤ`/`ℕ`,
Python dicts as insertion-ordered association lists, and fallible code as
`Except String`.
-/

namespace Diot

/-- Python `int()` applied to a number: truncation toward zero. -/
def pyInt (q : ℚ) : ℤ := if q < 0 then ⌈q⌉ else ⌊q⌋

/-- Lookup in an insertion-ordered association list (Python `d[k]` read, first match). -/
def aget {κ α : Type} [DecidableEq κ] (l : List (κ × α)) (k : κ) : Option α :=
  (l.find? (fun p => p.1 = k)).map (·.2)

/-- Write `d[k] = v` on an insertion-ordered association list: update every pair with
key `k` in place, or append a new pair when the key is absent (Python dict insertion
order). -/
def aset {κ α : Type} [DecidableEq κ] (l : List (κ × α)) (k : κ) (v : α) : List (κ × α) :=
  if (l.find? (fun p => p.1 = k)).isSome then
    l.map (fun p => if p.1 = k then (k, v) else p)
  else l ++ [(k, v)]

/-- Margin between the hardware OT shutdown and the software OT flag,
`SOFT_OT_THRESHOLD = 5` degrees Celsius in `diot/cards.py`. -/
def SOFT_OT_THRESHOLD : ℚ := 5

/-- State of a sensor-only channel (`SensorChannel` in `diot/channel.py`): an LM75
temperature reading plus its cached hysteresis and OT-shutdown configuration.
It has no PWM load; its `load_power` property is Python `None`. -/
structure SensorChannel where
  temperature : ℚ
  hysteresis : ℚ
  ot_shutdown : ℚ
  deriving Repr, DecidableEq

/-- State of a load channel (`Channel` in `diot/channel.py`): sensor state plus the
PWM duty cycle driving the resistive load and the channel power ceiling `max_power`. -/
structure Channel where
  temperature : ℚ
  hysteresis : ℚ
  ot_shutdown : ℚ
  max_power : ℚ
  duty_cycle : ℤ
  deriving Repr, DecidableEq

/-- Setter `Channel.load_power` (`diot/channel.py` lines 123-137): a request above
`max_power` is clamped to `max_power`; the duty cycle is `int(power / max_power * 0xFFFF)`.
(Python would raise `ZeroDivisionError` when `max_power = 0`; cards only build channels
with `max_power` 5 or 3, and the Lean convention `x / 0 = 0` is used at that corner.) -/
def Channel.set_load_power (ch : Channel) (power : ℚ) : Channel :=
  let p := if power > ch.max_power then ch.max_power else power
  { ch with duty_cycle := pyInt (p / ch.max_power * 65535) }

/-- Getter `Channel.load_power` (`diot/channel.py` lines 109-121): the cached value,
which always equals `duty_cycle / 0xFFFF * max_power`. -/
def Channel.load_power (ch : Channel) : ℚ :=
  (ch.duty_cycle : ℚ) / 65535 * ch.max_power

/-- One channel's entry in a card report (`SensorChannel.report` in `diot/channel.py`
plus the `ot_ev` key that `DIOTCard.report` inserts; `load_power` is `none` for a
sensor-only channel).  The source dict has no `ot_ev` key until `DIOTCard.report`
sets it; `Channel.mkReport`/`SensorChannel.mkReport` leave it `false`. -/
structure ChannelReport where
  temperature : ℚ
  hysteresis : ℚ
  ot_shutdown : ℚ
  load_power : Option ℚ
  ot_ev : Bool
  deriving Repr, DecidableEq

/-- Report of a load channel (`SensorChannel.report` inherited by `Channel`,
`diot/channel.py` lines 78-85). -/
def Channel.mkReport (ch : Channel) : ChannelReport :=
  { temperature := ch.temperature, hysteresis := ch.hysteresis,
    ot_shutdown := ch.ot_shutdown, load_power := some ch.load_power, ot_ev := false }

/-- Report of a sensor-only channel: its `load_power` property is Python `None`. -/
def SensorChannel.mkReport (s : SensorChannel) : ChannelReport :=
  { temperature := s.temperature, hysteresis := s.hysteresis,
    ot_shutdown := s.ot_shutdown, load_power := none, ot_ev := false }

/-- State of one DIOT card (`DIOTCard` in `diot/cards.py`): 17 load channels (16
regular plus the auxiliary channel last, `max_power = 3`), two connector sensor
channels, the card-level soft OT thresholds set by `init_config`, and the bus
voltage/current monitor readings.  The embedding does not fix the channel counts. -/
structure DIOTCard where
  serial_id : String
  voltage : ℚ
  current : ℚ
  load_channels : List Channel
  diot_conn_channels : List SensorChannel
  soft_ot_shutdown : ℚ
  soft_hysteresis : ℚ
  deriving Repr, DecidableEq

/-- Maximum total load power (`diot/cards.py` line 129): the sum of `max_power` over
`load_channels[:-1]`, i.e. every load channel except the auxiliary (3.3 V) one. -/
def DIOTCard.max_load_power (card : DIOTCard) : ℚ :=
  (card.load_channels.dropLast.map (·.max_power)).sum

/-- Method `DIOTCard.set_all_load_power` (`diot/cards.py` lines 208-211): sets the same
load power on every channel of `load_channels[:-1]` — the auxiliary (last) channel is
not touched. -/
def DIOTCard.set_all_load_power (card : DIOTCard) (power : ℚ) : DIOTCard :=
  { card with
    load_channels :=
      card.load_channels.dropLast.map (fun ch => ch.set_load_power power)
        ++ card.load_channels.getLast?.toList }

/-- Method `DIOTCard.shutdown_all_loads` (`diot/cards.py` lines 213-215):
`set_all_load_power(0)`. -/
def DIOTCard.shutdown_all_loads (card : DIOTCard) : DIOTCard :=
  card.set_all_load_power 0

/-- Method `DIOTCard.init_config` (`diot/cards.py` lines 131-144): every load and
connector channel receives the given `ot_shutdown`/`hysteresis` configuration, and the
card-level soft thresholds are set `SOFT_OT_THRESHOLD` degrees below the hardware
values.  (The PWM auto-increment register write has no observable state here.) -/
def DIOTCard.init_config (card : DIOTCard) (ot_shutdown : ℚ) (hysteresis : ℚ) : DIOTCard :=
  { card with
    load_channels := card.load_channels.map
      (fun ch => { ch with ot_shutdown := ot_shutdown, hysteresis := hysteresis }),
    diot_conn_channels := card.diot_conn_channels.map
      (fun s => { s with ot_shutdown := ot_shutdown, hysteresis := hysteresis }),
    soft_ot_shutdown := ot_shutdown - SOFT_OT_THRESHOLD,
    soft_hysteresis := hysteresis - SOFT_OT_THRESHOLD }

/-- Aggregate card report (`DIOTCard.report`, `diot/cards.py` lines 217-231). -/
structure CardReport where
  card_serial : String
  voltage : ℚ
  current : ℚ
  channels : List ChannelReport
  deriving Repr, DecidableEq

/-- Method `DIOTCard.report` (`diot/cards.py` lines 217-231): collects the report of
every channel in `load_channels + diot_conn_channels` and sets each report's `ot_ev`
to `temperature >= self._soft_ot_shutdown`. -/
def DIOTCard.report (card : DIOTCard) : CardReport :=
  { card_serial := card.serial_id, voltage := card.voltage, current := card.current,
    channels :=
      (card.load_channels.map Channel.mkReport
        ++ card.diot_conn_channels.map SensorChannel.mkReport).map
        (fun rep => { rep with ot_ev := decide (rep.temperature ≥ card.soft_ot_shutdown) }) }

/-! Embedding of `diot/manager.py` (`DIOTCrateManager`).  The manager's `self.cards`
dict is an insertion-ordered association list from serial to card state. -/

/-- The manager's `self.cards` dict. -/
abbrev MgrCards := List (String × DIOTCard)

/-- Constant `self._steady_state_threshold = 1.0` K per minute (`diot/manager.py` line 52). -/
def STEADY_STATE_THRESHOLD : ℚ := 1

/-- Constant `self._min_history_duration = 60.0` seconds (`diot/manager.py` line 53). -/
def MIN_HISTORY_DURATION : ℚ := 60

/-- Fixed `deque(maxlen=60)` depth of the manager's temperature history
(`diot/manager.py` line 49). -/
def MGR_HISTORY_MAXLEN : ℕ := 60

/-- Method `DIOTCrateManager.shutdown_all_loads` (`diot/manager.py` lines 89-92):
`card.shutdown_all_loads()` on every registered card. -/
def shutdown_all_loads_mgr (cards : MgrCards) : MgrCards :=
  cards.map (fun p => (p.1, p.2.shutdown_all_loads))

/-- Method `DIOTCrateManager._set_single_card_load_power` (`diot/manager.py` lines
94-110): `KeyError` when the serial is unknown; a request above the card's
`max_load_power` is clamped to it (two `logger.warning` calls, modelled by the returned
flag); the resulting power is divided by `len(card.load_channels)` — the full list,
auxiliary channel included — and handed to `set_all_load_power`. -/
def set_single_card_load_power (cards : MgrCards) (serial : String) (power : ℚ) :
    Except String (MgrCards × Bool) :=
  match aget cards serial with
  | none => .error ("KeyError: " ++ serial)
  | some card =>
    let maxp := card.max_load_power
    let clamped := if power > maxp then maxp else power
    let power_per_channel := clamped / (card.load_channels.length : ℚ)
    .ok (aset cards serial (card.set_all_load_power power_per_channel),
         decide (power > maxp))

/-- The `for s, p in zip(serial, power, strict=True)` loop of `set_cards_load_power`
(`diot/manager.py` lines 124-125): `_set_single_card_load_power` on each pair in
order; an exception aborts the loop.  The warned serials accumulate in order,
modelling the per-card clamp log. -/
def set_cards_loop :
    List (String × ℚ) → MgrCards × List String → Except String (MgrCards × List String)
  | [], acc => .ok acc
  | sp :: rest, acc =>
    match set_single_card_load_power acc.1 sp.1 sp.2 with
    | .error e => .error e
    | .ok r => set_cards_loop rest (r.1, acc.2 ++ if r.2 then [sp.1] else [])

/-- Method `DIOTCrateManager.set_cards_load_power` (`diot/manager.py` lines 112-125)
after the scalar-to-list normalisation: `ValueError` when the serial and power lists
have different lengths, otherwise `_set_single_card_load_power` on each pair in
order. -/
def set_cards_load_power (cards : MgrCards) (serials : List String) (powers : List ℚ) :
    Except String (MgrCards × List String) :=
  if serials.length ≠ powers.length then
    .error "ValueError: Serial numbers and power lists must have the same length"
  else
    set_cards_loop (serials.zip powers) (cards, [])

/-- Value bound to the `elapsed_time` parameter of `DIOTCrateManager.report_cards`.
The intended argument is a float, but `MonitoringSession.monitor` (line 373-375)
passes its `serials_to_monitor` list positionally into this parameter, so the value
may also be a Python list of serial strings. -/
inductive El where
  | q (t : ℚ)
  | serials (l : List String)
  deriving Repr, DecidableEq

/-- Python subtraction `a - b` on two stored timestamps: `TypeError` unless both are
floats. -/
def elSub (a b : El) : Except String ℚ :=
  match a, b with
  | .q x, .q y => .ok (x - y)
  | _, _ => .error "TypeError: unsupported operand type(s) for -"

/-- Python `a - 60.0` style use of a stored timestamp: `TypeError` unless it is a float. -/
def elAsQ (a : El) : Except String ℚ :=
  match a with
  | .q x => .ok x
  | .serials _ => .error "TypeError: unsupported operand type(s) for -"

/-- Python comparison `t >= w` between a stored timestamp and a float: `TypeError`
unless the timestamp is a float. -/
def elGe (a : El) (w : ℚ) : Except String Bool :=
  match a with
  | .q x => .ok (decide (x ≥ w))
  | .serials _ => .error "TypeError: unorderable types"

/-- The manager's `self._temp_history`: card id, then channel index, then the bounded
deque of `(elapsed_time, temperature)` samples. -/
abbrev MHist := List (String × List (ℕ × List (El × ℚ)))

/-- Append to a `deque(maxlen=cap)`: the oldest entry is evicted once the capacity is
reached. -/
def dequeAppend {α : Type} (cap : ℕ) (l : List α) (x : α) : List α :=
  let l2 := l ++ [x]
  l2.drop (l2.length - cap)

/-- One `self._temp_history[card_id][ch_ix].append((elapsed_time, temp))` on the
manager history (`diot/manager.py` line 246), with the defaultdict creating missing
levels. -/
def mhistAppend (hist : MHist) (card_id : String) (ch_ix : ℕ) (e : El × ℚ) : MHist :=
  let chans := (aget hist card_id).getD []
  let entries := (aget chans ch_ix).getD []
  aset hist card_id (aset chans ch_ix (dequeAppend MGR_HISTORY_MAXLEN entries e))

/-- The `history_complete = all(...)` generator of `DIOTCrateManager._check_steady_state`
(`diot/manager.py` lines 156-160): lazily, per channel, `len >= 2` and the first/last
timestamp difference at least `_min_history_duration`; `all` stops at the first `False`,
so the (possibly `TypeError`-raising) subtraction only runs for channels of length ≥ 2. -/
def historyComplete : List (ℕ × List (El × ℚ)) → Except String Bool
  | [] => .ok true
  | (_, entries) :: rest =>
    if entries.length < 2 then .ok false
    else
      match entries.head?, entries.getLast? with
      | some first, some last => do
        let d ← elSub last.1 first.1
        if d ≥ MIN_HISTORY_DURATION then historyComplete rest else .ok false
      | _, _ => .error "IndexError: deque index out of range"

/-- The `for i, (t, _) in enumerate(ch_history)` window scan of
`_check_steady_state` (`diot/manager.py` lines 175-179): the first index whose
timestamp is at least the window start time, `none` when no timestamp qualifies
(the source then keeps its initial index 0). -/
def mgrScanWindowStart : List (El × ℚ) → ℚ → ℕ → Except String (Option ℕ)
  | [], _, _ => .ok none
  | e :: rest, wst, i => do
    let b ← elGe e.1 wst
    if b then .ok (some i) else mgrScanWindowStart rest wst (i + 1)

/-- The per-channel rate loop of `DIOTCrateManager._check_steady_state`
(`diot/manager.py` lines 167-197): for each channel, locate the window start, take the
first and last samples, skip the channel when the time difference is ≤ 0 (`continue`),
otherwise record `rate = (last_temp - first_temp) * (60 / time_diff)`. -/
def mgrRatesLoop : List (ℕ × List (El × ℚ)) → Except String (List (ℕ × ℚ))
  | [] => .ok []
  | (ix, entries) :: rest =>
    match entries.getLast? with
    | none => .error "IndexError: deque index out of range"
    | some lastE => do
      let latest ← elAsQ lastE.1
      let idxOpt ← mgrScanWindowStart entries (latest - MIN_HISTORY_DURATION) 0
      match entries[idxOpt.getD 0]? with
      | none => .error "IndexError: deque index out of range"
      | some firstE => do
        let td ← elSub lastE.1 firstE.1
        let tailRates ← mgrRatesLoop rest
        if td ≤ 0 then .ok tailRates
        else .ok ((ix, (lastE.2 - firstE.2) * (60 / td)) :: tailRates)

/-- Method `DIOTCrateManager._check_steady_state` (`diot/manager.py` lines 127-204):
`(False, {})` when the card has no history or the history is incomplete, otherwise the
per-channel rates and `is_steady = all(abs(rate) <= self._steady_state_threshold)`. -/
def check_steady_state_mgr (hist : MHist) (card_id : String) :
    Except String (Bool × List (ℕ × ℚ)) :=
  match aget hist card_id with
  | none => .ok (false, [])
  | some card_history => do
    let complete ← historyComplete card_history
    if !complete then .ok (false, [])
    else do
      let rates ← mgrRatesLoop card_history
      .ok (rates.all (fun r => |r.2| ≤ STEADY_STATE_THRESHOLD), rates)

/-- One measurement row assembled by `DIOTCrateManager.report_cards`
(`diot/manager.py` lines 257-271).  Its `elapsed_time` field holds whatever value the
`elapsed_time` parameter received (a float, `None`, or — through the call in
`MonitoringSession.monitor` — a list of serials). -/
structure MgrRow where
  elapsed_time : Option El
  card_serial : String
  channel : ℕ
  temperature : ℚ
  load_power : Option ℚ
  ot_shutdown_t : ℚ
  ot_ev : Bool
  voltage : ℚ
  current : ℚ
  steady_state : Bool
  temp_rate_per_min : Option ℚ
  deriving Repr, DecidableEq

/-- The row-assembly loop of `report_cards` (`diot/manager.py` lines 257-271), one row
per channel of one card report in channel order. -/
def mkMgrRows (elapsed : Option El) (card_id : String) (voltage current : ℚ)
    (is_steady : Bool) (rates : List (ℕ × ℚ)) :
    List ChannelReport → ℕ → List MgrRow
  | [], _ => []
  | ch :: rest, ix =>
    { elapsed_time := elapsed, card_serial := card_id, channel := ix,
      temperature := ch.temperature, load_power := ch.load_power,
      ot_shutdown_t := ch.ot_shutdown, ot_ev := ch.ot_ev,
      voltage := voltage, current := current, steady_state := is_steady,
      temp_rate_per_min := aget rates ix }
      :: mkMgrRows elapsed card_id voltage current is_steady rates rest (ix + 1)

/-- The history-update loop of `report_cards` (`diot/manager.py` lines 243-246): append
`(elapsed_time, temperature)` for every channel of one card report, in channel order. -/
def appendMHistAll (card_id : String) (e : El) :
    List ChannelReport → ℕ → MHist → MHist
  | [], _, hist => hist
  | ch :: rest, ix, hist =>
    appendMHistAll card_id e rest (ix + 1)
      (mhistAppend hist card_id ix (e, ch.temperature))

/-- Accumulated state of the `for report in combined_results` loop of `report_cards`
(`diot/manager.py` lines 229-271): the possibly shut-down cards, the manager history,
and the three values returned as a tuple on line 273. -/
structure RCState where
  cards : MgrCards
  hist : MHist
  ot_per_card : List Bool
  measurements : List MgrRow
  steady_states : List (String × Bool × List (ℕ × ℚ))
  deriving Repr, DecidableEq

/-- The card-scoped OT shutdown of `report_cards` (`diot/manager.py` lines 238-240):
when enabled and the card's report shows an OT event,
`self.cards[card_id].shutdown_all_loads()` — a `KeyError` when the report's serial is
not a registry key. -/
def shutdown_on_ot (cards : MgrCards) (shutdown_card_on_ot : Bool) (card_id : String)
    (card_ot_ev : Bool) : Except String MgrCards :=
  if shutdown_card_on_ot && card_ot_ev then
    match aget cards card_id with
    | some c => .ok (aset cards card_id c.shutdown_all_loads)
    | none => .error ("KeyError: " ++ card_id)
  else .ok cards

/-- The `for report in combined_results` loop of `report_cards` (`diot/manager.py`
lines 229-271): per card, compute `card_ot_ev`, apply the card-scoped OT shutdown,
update the history when `elapsed_time` is not `None`, run `_check_steady_state`, and
append the per-channel rows. -/
def report_cards_loop (shutdown_card_on_ot : Bool) (elapsed : Option El) :
    List CardReport → RCState → Except String RCState
  | [], st => .ok st
  | rep :: rest, st => do
    let card_id := rep.card_serial
    let card_ot_ev := rep.channels.any (·.ot_ev)
    let cards1 ← shutdown_on_ot st.cards shutdown_card_on_ot card_id card_ot_ev
    let hist1 :=
      match elapsed with
      | some e => appendMHistAll card_id e rep.channels 0 st.hist
      | none => st.hist
    let sr ← check_steady_state_mgr hist1 card_id
    report_cards_loop shutdown_card_on_ot elapsed rest
      { cards := cards1, hist := hist1,
        ot_per_card := st.ot_per_card ++ [card_ot_ev],
        measurements :=
          st.measurements
            ++ mkMgrRows elapsed card_id rep.voltage rep.current sr.1 sr.2 rep.channels 0,
        steady_states := st.steady_states ++ [(card_id, sr.1, sr.2)] }

/-- Method `DIOTCrateManager.report_cards` (`diot/manager.py` lines 206-273): the
polled serials default to all registered cards when the `serials` parameter is `None`;
every polled card's `report()` is collected first (`KeyError` on an unknown serial),
then the per-card loop runs.  The returned `RCState` carries the mutated manager state
and the `(ot_per_card, measurements, steady_states)` 3-tuple returned on line 273. -/
def report_cards (cards : MgrCards) (hist : MHist) (shutdown_card_on_ot : Bool)
    (elapsed_time : Option El) (serials : Option (List String)) :
    Except String RCState := do
  let serialList := serials.getD (cards.map (·.1))
  let combined ← serialList.mapM (fun s =>
    match aget cards s with
    | some c => .ok c.report
    | none => .error ("KeyError: " ++ s))
  report_cards_loop shutdown_card_on_ot elapsed_time combined
    { cards := cards, hist := hist, ot_per_card := [], measurements := [],
      steady_states := [] }

/-! Embedding of `diot/monitor.py` (`MonitoringSession`). -/

/-- Modelled from the spec: the constant `SECONDS_PER_BOARD`, which
`diot/monitor.py` line 8 imports from `diot/manager.py`, is absent from the sources.
Per `diot/monitor.py` line 433 it is the expected seconds to poll one board; the spec
(§4.1) says a tick "is expected to take time roughly proportional to the number of
cards" and an in-source comment (`diot/manager.py` line 224) observes that one card's
report "takes just above 1 second", so it is modelled as 1 second per board. -/
def SECONDS_PER_BOARD : ℚ := 1

/-- The buffer depth fixed by `MonitoringSession.set_history_buffer`
(`diot/monitor.py` lines 114-116):
`int(self.ss_window_duration_s * (SECONDS_PER_BOARD / n_cards)) + 1`.
(Python raises `ZeroDivisionError` when `n_cards = 0`; the Lean convention `x / 0 = 0`
is used at that corner.) -/
def set_history_buffer_depth (ss_window_duration_s : ℚ) (n_cards : ℕ) : ℤ :=
  pyInt (ss_window_duration_s * (SECONDS_PER_BOARD / (n_cards : ℚ))) + 1

/-- Capacity formula as the spec states it (spec §4.2: capacity is
`ceil(windowDuration / expectedPerCardInterval) + 1`).  Spec-side definition, kept for
comparison with `set_history_buffer_depth`. -/
def spec_history_capacity (windowDuration expectedPerCardInterval : ℚ) : ℤ :=
  ⌈windowDuration / expectedPerCardInterval⌉ + 1

/-- The monitor's `self._temp_history`: card id, then channel index, then the bounded
deque of `(elapsed_time, temperature)` samples (both floats here). -/
abbrev SHist := List (String × List (ℕ × List (ℚ × ℚ)))

/-- Append one sample to the monitor history (`diot/monitor.py` lines 265-267), with
the defaultdict creating missing levels and the deque capacity fixed at session start. -/
def shistAppend (hist : SHist) (card_id : String) (ch_ix : ℕ) (cap : ℕ) (e : ℚ × ℚ) :
    SHist :=
  let chans := (aget hist card_id).getD []
  let entries := (aget chans ch_ix).getD []
  aset hist card_id (aset chans ch_ix (dequeAppend cap entries e))

/-- The `for i, (t, _) in enumerate(ch_history)` scan of
`MonitoringSession._find_window_start_idx` (`diot/monitor.py` lines 160-167): the
first index whose timestamp is at least the window start time, `none` when no
timestamp qualifies (the source then keeps its initial index 0). -/
def scanWindowStart : List (ℚ × ℚ) → ℚ → ℕ → Option ℕ
  | [], _, _ => none
  | e :: rest, wst, i => if e.1 ≥ wst then some i else scanWindowStart rest wst (i + 1)

/-- Method `MonitoringSession._find_window_start_idx` (`diot/monitor.py` lines
129-168): `None` when the card is not in the history buffer; otherwise channel 0's
history is consulted — its first and last timestamps are read (an `IndexError` on an
empty deque, unreachable in the monitor flow), `None` is returned unless the history
has at least 2 samples spanning at least `ss_window_duration_s`, and otherwise the
window start index found by the scan (0 when the scan finds nothing). -/
def find_window_start_idx (card_known : Bool) (ch_history : List (ℚ × ℚ))
    (window : ℚ) : Except String (Option ℕ) :=
  if !card_known then .ok none
  else
    match ch_history.head?, ch_history.getLast? with
    | some oldest, some newest =>
      if 2 ≤ ch_history.length ∧ window ≤ newest.1 - oldest.1 then
        .ok (some ((scanWindowStart ch_history (newest.1 - window) 0).getD 0))
      else .ok none
    | _, _ => .error "IndexError: deque index out of range"

/-- Method `MonitoringSession._check_ch_steady_state` (`diot/monitor.py` lines
170-207) on one channel's history: `(None, False)` when `window_start_idx` is `None`;
otherwise the samples at `window_start_idx` and `-1` are read (an `IndexError` when the
index is out of range, unreachable in the monitor flow), `(None, False)` when the time
difference is ≤ 0, and otherwise
`rate = (last_temp - first_temp) * (60 / time_diff)` with the verdict
`abs(rate) <= ss_threshold`. -/
def check_ch_steady_state (ch_history : List (ℚ × ℚ)) (ss_threshold : ℚ)
    (window_start_idx : Option ℕ) : Except String (Option ℚ × Bool) :=
  match window_start_idx with
  | none => .ok (none, false)
  | some i =>
    match ch_history[i]?, ch_history.getLast? with
    | some first, some last =>
      let time_diff := last.1 - first.1
      if time_diff ≤ 0 then .ok (none, false)
      else
        let rate := (last.2 - first.2) * (60 / time_diff)
        .ok (some rate, decide (|rate| ≤ ss_threshold))
    | _, _ => .error "IndexError: deque index out of range"

/-- The monitor's `self.steady_registry`: card id mapped to
`(reached_steady, elapsed_time)`. -/
abbrev SSRegistry := List (String × Bool × ℚ)

/-- Method `MonitoringSession.modify_ss_registry` (`diot/monitor.py` lines 209-251):
a card newly steady and absent from the registry is added with `True` (and the call
reports a first-time transition); a registered card flips its recorded verdict on a
transition in either direction; otherwise nothing changes. -/
def modify_ss_registry (reg : SSRegistry) (card_id : String) (is_steady : Bool)
    (elapsed_time : ℚ) : SSRegistry × Bool :=
  match aget reg card_id with
  | none =>
    if is_steady then (aset reg card_id (true, elapsed_time), true)
    else (reg, false)
  | some prev =>
    if is_steady && !prev.1 then (aset reg card_id (true, elapsed_time), false)
    else if !is_steady && prev.1 then (aset reg card_id (false, elapsed_time), false)
    else (reg, false)

/-- One measurement row assembled by `MonitoringSession.process_card_report`
(`diot/monitor.py` lines 274-286). -/
structure Measurement where
  elapsed_time : ℚ
  card_serial : String
  channel : ℕ
  temperature : ℚ
  load_power : Option ℚ
  ot_shutdown_t : ℚ
  ot_ev : Bool
  voltage : ℚ
  current : ℚ
  steady_state : Bool
  temp_rate_per_min : Option ℚ
  deriving Repr, DecidableEq

/-- The `for ch_idx, ch_data in enumerate(report["channels"])` loop of
`process_card_report` (`diot/monitor.py` lines 264-287): per channel, append the new
sample to the history, run `_check_ch_steady_state` on the channel's (post-append)
history, and assemble the row; the per-channel verdicts and rates accumulate in
channel order (`ss_per_ch`, `rate_per_ch`). -/
def process_channels (card_id : String) (voltage current : ℚ) (cap : ℕ)
    (thr elapsed : ℚ) (ws : Option ℕ) :
    List ChannelReport → ℕ → SHist →
    Except String (List Measurement × List Bool × List (Option ℚ) × SHist)
  | [], _, hist => .ok ([], [], [], hist)
  | ch :: rest, ix, hist => do
    let hist1 := shistAppend hist card_id ix cap (elapsed, ch.temperature)
    let entries := (aget ((aget hist1 card_id).getD []) ix).getD []
    let rs ← check_ch_steady_state entries thr ws
    let tl ← process_channels card_id voltage current cap thr elapsed ws rest (ix + 1) hist1
    .ok
      ({ elapsed_time := elapsed, card_serial := card_id, channel := ix,
         temperature := ch.temperature, load_power := ch.load_power,
         ot_shutdown_t := ch.ot_shutdown, ot_ev := ch.ot_ev,
         voltage := voltage, current := current, steady_state := rs.2,
         temp_rate_per_min := rs.1 } :: tl.1,
       rs.2 :: tl.2.1, rs.1 :: tl.2.2.1, tl.2.2.2)

/-- Method `MonitoringSession.process_card_report` (`diot/monitor.py` lines 253-299):
compute `card_ot_ev`, find the window start index from channel 0's pre-append history,
process every channel of the report, take
`is_steady = all(ss_per_ch.values())`, and update the steady-state registry.
Returns `(card_ot_ev, measurements, is_steady)` together with the updated history and
registry. -/
def process_card_report (hist : SHist) (cap : ℕ) (window thr : ℚ) (reg : SSRegistry)
    (report : CardReport) (elapsed : ℚ) :
    Except String (Bool × List Measurement × Bool × SHist × SSRegistry) := do
  let card_id := report.card_serial
  let card_ot_ev := report.channels.any (·.ot_ev)
  let ws ← find_window_start_idx (aget hist card_id).isSome
    ((aget ((aget hist card_id).getD []) 0).getD []) window
  let pc ← process_channels card_id report.voltage report.current cap thr elapsed ws
    report.channels 0 hist
  let is_steady := pc.2.1.all id
  let reg1 := (modify_ss_registry reg card_id is_steady elapsed).1
  .ok (card_ot_ev, pc.1, is_steady, pc.2.2.2, reg1)

/-! The sampling-cycle call site of `MonitoringSession.monitor` (`diot/monitor.py`
lines 372-383).  The call on lines 373-375 is
`self.crate_manager.report_cards(shutdown_card_on_ot, serials_to_monitor)`:
`serials_to_monitor` is passed positionally into `report_cards`' second parameter
`elapsed_time`, and the third parameter `serials` keeps its default `None`.  The
returned value is then iterated (`for report in reports`) as if it were a list of
per-card report dicts; the dynamic typing of that iteration is modelled by `PyV`. -/

/-- Python values as seen by the `for report in reports` loop. -/
inductive PyV where
  | pyBool (b : Bool)
  | pyStr (s : String)
  | pyRat (q : ℚ)
  | pyNone
  | pyList (xs : List PyV)
  | pyDict (kvs : List (String × PyV))

/-- A stored `elapsed_time` value as a Python value. -/
def elToPy : Option El → PyV
  | none => .pyNone
  | some (.q t) => .pyRat t
  | some (.serials l) => .pyList (l.map .pyStr)

/-- An optional float as a Python value. -/
def optQToPy : Option ℚ → PyV
  | none => .pyNone
  | some q => .pyRat q

/-- One `report_cards` measurement row as the Python dict built on lines 258-270 of
`diot/manager.py`. -/
def mgrRowToPy (r : MgrRow) : PyV :=
  .pyDict
    [("elapsed_time", elToPy r.elapsed_time), ("card_serial", .pyStr r.card_serial),
     ("channel", .pyRat r.channel), ("temperature", .pyRat r.temperature),
     ("load_power", optQToPy r.load_power), ("ot_shutdown_t", .pyRat r.ot_shutdown_t),
     ("ot_ev", .pyBool r.ot_ev), ("voltage", .pyRat r.voltage),
     ("current", .pyRat r.current), ("steady_state", .pyBool r.steady_state),
     ("temp_rate_per_min", optQToPy r.temp_rate_per_min)]

/-- One `steady_states[card_id]` entry as the Python dict built on line 250 of
`diot/manager.py` (the integer channel keys of `temp_rates` are rendered as strings
here; only the outer constructor matters for the claims). -/
def steadyEntryToPy (e : Bool × List (ℕ × ℚ)) : PyV :=
  .pyDict
    [("is_steady", .pyBool e.1),
     ("temp_rates", .pyDict (e.2.map (fun p => (toString p.1, .pyRat p.2))))]

/-- The value returned by `report_cards` (line 273 of `diot/manager.py`), as the
sequence of elements Python yields when the 3-tuple
`(ot_per_card, measurements, steady_states)` is iterated. -/
def tripleAsPy (st : RCState) : List PyV :=
  [.pyList (st.ot_per_card.map .pyBool),
   .pyList (st.measurements.map mgrRowToPy),
   .pyDict (st.steady_states.map (fun s => (s.1, steadyEntryToPy s.2)))]

/-- Python subscript `v["key"]` with a string key: a dict lookup (`KeyError` when the
key is missing), a `TypeError` on a list, a `TypeError` otherwise. -/
def pySubscriptStr : PyV → String → Except String PyV
  | .pyDict kvs, k =>
    match kvs.find? (fun p => p.1 = k) with
    | some p => .ok p.2
    | none => .error ("KeyError: " ++ k)
  | .pyList _, _ => .error "TypeError: list indices must be integers or slices, not str"
  | _, _ => .error "TypeError: object is not subscriptable"

/-- The first executed sampling cycle of `MonitoringSession.monitor` (`diot/monitor.py`
lines 372-383): `report_cards` is called with `serials_to_monitor` in the
`elapsed_time` position and `serials` left at `None`; the returned 3-tuple is iterated
and each element is handed to `process_card_report`, whose first operation is
`report["card_serial"]` (line 255).  The remainder of `process_card_report` is
unreachable for the non-dict elements the tuple yields, so each iteration is modelled
up to that first subscript; on dict elements the loop would collect the card serial
and continue. -/
def monitor_first_cycle (cards : MgrCards) (hist : MHist) (shutdown_card_on_ot : Bool)
    (serials_to_monitor : Option (List String)) : Except String (List PyV) := do
  let st ← report_cards cards hist shutdown_card_on_ot
    (serials_to_monitor.map El.serials) none
  (tripleAsPy st).foldlM
    (fun acc rep => do
      let cid ← pySubscriptStr rep "card_serial"
      .ok (acc ++ [cid]))
    []

/-- The `report_cards` invocation exactly as `MonitoringSession.monitor` lines 373-375
perform it: `serials_to_monitor` bound positionally to `elapsed_time`, `serials`
defaulted to `None`. -/
def monitor_report_call (cards : MgrCards) (hist : MHist) (shutdown_card_on_ot : Bool)
    (serials_to_monitor : Option (List String)) : Except String RCState :=
  report_cards cards hist shutdown_card_on_ot (serials_to_monitor.map El.serials) none

/-! Control-flow model of `MonitoringSession.monitor` (`diot/monitor.py` lines
301-438).  The card reports, measurement rows, and per-card verdicts produced during
one completed sampling cycle depend on hardware I/O and the monotonic clock, so they
enter the embedding as that cycle's outcome; the loop, the stop conditions, and the
`try/finally` finalisation are embedded from the source. -/

/-- The configuration flags of one `monitor(...)` call. -/
structure MonitorConfig where
  shutdown_card_on_ot : Bool
  stop_on_ot : Bool
  stop_on_steady_state : Bool
  shutdown_at_end : Bool
  save_every_iteration : Bool
  deriving Repr, DecidableEq

/-- Outcome of one iteration of the sampling loop in which the interval condition
fired: either a completed cycle — the per-card `(serial, card_ot_ev, is_card_steady)`
results of `process_card_report` in order and the rows it assembled — or an exception
(including a user interrupt) raised from within the cycle before its rows were
accumulated. -/
inductive CycleOutcome where
  | cycle (elapsed : ℚ) (cards : List (String × Bool × Bool)) (rows : List Measurement)
  | raise (msg : String)
  deriving Repr, DecidableEq

/-- Mutable state of the sampling loop (`diot/monitor.py` lines 352-409):
`ot_ev_detected`, the `_state_info` dict, `self.measurements`, the rows already
written to the CSV sink, and `self.steady_registry`. -/
structure LoopState where
  ot_ev_detected : Bool
  state_info : List (String × Bool)
  measurements : List Measurement
  written : List Measurement
  steady_registry : SSRegistry
  deriving Repr, DecidableEq

/-- How the sampling loop ended: the duration expired (the outcome list was
exhausted), a `break` fired, or an exception propagated out of a cycle. -/
inductive LoopExit where
  | finished
  | broke
  | exn (msg : String)
  deriving Repr, DecidableEq

/-- Fresh loop state at `monitor` start (lines 352-354). -/
def initLoopState : LoopState :=
  { ot_ev_detected := false, state_info := [], measurements := [], written := [],
    steady_registry := [] }

/-- Per-cycle state update of `monitor` lines 376-383: for each processed card, the
registry update performed inside `process_card_report`, then
`ot_ev_detected |= card_ot_ev` and `_state_info[serial] = is_card_steady`. -/
def cycleCardsFold (elapsed : ℚ) (st : LoopState)
    (cards : List (String × Bool × Bool)) : LoopState :=
  cards.foldl
    (fun a c =>
      { a with
        ot_ev_detected := a.ot_ev_detected || c.2.1,
        state_info := aset a.state_info c.1 c.2.2,
        steady_registry := (modify_ss_registry a.steady_registry c.1 c.2.2 elapsed).1 })
    st

/-- State after the body of one completed cycle (lines 376-392): the per-card fold,
then `self.measurements.extend(crate_measurements)` and — when
`save_every_iteration` — the incremental CSV write of this cycle's rows. -/
def monitor_cycle_state (cfg : MonitorConfig) (st : LoopState) (elapsed : ℚ)
    (cards : List (String × Bool × Bool)) (rows : List Measurement) : LoopState :=
  let st1 := cycleCardsFold elapsed st cards
  { st1 with
    measurements := st1.measurements ++ rows,
    written := st1.written ++ if cfg.save_every_iteration then rows else [] }

/-- The `while` loop of `monitor` (lines 364-406) over the outcomes of the iterations
whose interval condition fired: a completed cycle folds its per-card results into the
state, extends `self.measurements`, writes the cycle's rows when
`save_every_iteration`, then checks the stop conditions in source order (OT first,
then steady state); an exception aborts the loop.  Returns the final state, the exit
kind, and the number of outcomes consumed. -/
def monitor_loop (cfg : MonitorConfig) (st : LoopState) :
    List CycleOutcome → LoopState × LoopExit × ℕ
  | [] => (st, .finished, 0)
  | .raise msg :: _ => (st, .exn msg, 1)
  | .cycle elapsed cards rows :: rest =>
    let st2 := monitor_cycle_state cfg st elapsed cards rows
    let all_steady := st2.state_info.all (·.2)
    if cfg.stop_on_ot && st2.ot_ev_detected then (st2, .broke, 1)
    else if cfg.stop_on_steady_state && all_steady then (st2, .broke, 1)
    else
      let r := monitor_loop cfg st2 rest
      (r.1, r.2.1, r.2.2 + 1)

/-- Observable result of one `monitor` call after the `finally` block
(lines 407-430). -/
structure MonitorResult where
  collected : List Measurement
  written : List Measurement
  loads_shutdown : Bool
  summary_emitted : Bool
  exit : LoopExit
  registry : SSRegistry
  deriving Repr, DecidableEq

/-- Method `MonitoringSession.monitor` (lines 363-430): the sampling loop inside
`try`, then the `finally` block, which runs on every exit path: it writes
`self.measurements` when not saving every iteration, shuts down all loads when
`shutdown_at_end`, and emits the steady-state summary only when `self.steady_registry`
is non-empty (`if self.steady_registry:` on line 419). -/
def monitor_run (cfg : MonitorConfig) (outcomes : List CycleOutcome) : MonitorResult :=
  let r := monitor_loop cfg initLoopState outcomes
  let st := r.1
  { collected := st.measurements,
    written := st.written ++ if !cfg.save_every_iteration then st.measurements else [],
    loads_shutdown := cfg.shutdown_at_end,
    summary_emitted := !st.steady_registry.isEmpty,
    exit := r.2.1,
    registry := st.steady_registry }

/-- Predicate on a loop iteration outcome: it is a completed cycle. -/
def outcomeIsCycle : CycleOutcome → Bool
  | .cycle _ _ _ => true
  | .raise _ => false

/-- Predicate on a loop iteration outcome: the completed cycle reported an OT event on
some card. -/
def outcomeHasOT : CycleOutcome → Bool
  | .cycle _ cs _ => cs.any (·.2.1)
  | .raise _ => false

/-! Concrete fixtures used by counterexamples and witnesses. -/

/-- A load channel at 77 °C with zero duty cycle. -/
def chC1 : Channel :=
  { temperature := 77, hysteresis := 70, ot_shutdown := 75, max_power := 5,
    duty_cycle := 0 }

/-- A one-channel card, before `init_config`. -/
def cardC1 : DIOTCard :=
  { serial_id := "DT00", voltage := 12, current := 1, load_channels := [chC1],
    diot_conn_channels := [], soft_ot_shutdown := 0, soft_hysteresis := 0 }

/-- The channel report that `(cardC1.init_config 80 75).report` produces. -/
def repC1 : ChannelReport :=
  { temperature := 77, hysteresis := 75, ot_shutdown := 80, load_power := some 0,
    ot_ev := true }

/-- A regular load channel currently driven at 2 W. -/
def chC2a : Channel :=
  { temperature := 30, hysteresis := 75, ot_shutdown := 80, max_power := 5,
    duty_cycle := 26214 }

/-- An auxiliary load channel (`max_power = 3`) at full duty cycle, i.e. 3 W. -/
def chC2aux : Channel :=
  { temperature := 30, hysteresis := 75, ot_shutdown := 80, max_power := 3,
    duty_cycle := 65535 }

/-- A card whose auxiliary (last) load channel is powered. -/
def cardC2 : DIOTCard :=
  { serial_id := "DT01", voltage := 12, current := 1,
    load_channels := [chC2a, chC2aux], diot_conn_channels := [],
    soft_ot_shutdown := 75, soft_hysteresis := 70 }

/-- A card report with no channels at all. -/
def repC5 : CardReport :=
  { card_serial := "DT00", voltage := 12, current := 1, channels := [] }

/-- A card report with one (load) channel. -/
def repC5w : CardReport :=
  { card_serial := "DT0w", voltage := 12, current := 1,
    channels := [{ temperature := 25, hysteresis := 75, ot_shutdown := 80,
                   load_power := some 1, ot_ev := false }] }

/-- Monitor configuration running in batch-save mode with end-of-run shutdown. -/
def cfgC7 : MonitorConfig :=
  { shutdown_card_on_ot := true, stop_on_ot := false, stop_on_steady_state := false,
    shutdown_at_end := true, save_every_iteration := false }

/-- Monitor configuration with `stop_on_ot` enabled. -/
def cfgC10 : MonitorConfig :=
  { shutdown_card_on_ot := false, stop_on_ot := true, stop_on_steady_state := false,
    shutdown_at_end := true, save_every_iteration := true }

/-- Three completed cycles: no OT, then an OT event on card DT00, then the OT
condition cleared again. -/
def outsC10 : List CycleOutcome :=
  [.cycle 0 [("DT00", false, false)] [], .cycle 10 [("DT00", true, false)] [],
   .cycle 20 [("DT00", false, false)] []]

/-- A regular load channel (`max_power = 5`), currently off. -/
def chC6 : Channel :=
  { temperature := 30, hysteresis := 75, ot_shutdown := 80, max_power := 5,
    duty_cycle := 0 }

/-- An auxiliary load channel (`max_power = 3`), currently off. -/
def chC6aux : Channel :=
  { temperature := 30, hysteresis := 75, ot_shutdown := 80, max_power := 3,
    duty_cycle := 0 }

/-- A full card: 16 regular load channels plus the auxiliary one, so
`max_load_power = 16 * 5 = 80` W. -/
def cardC6 : DIOTCard :=
  { serial_id := "DT02", voltage := 12, current := 1,
    load_channels := List.replicate 16 chC6 ++ [chC6aux], diot_conn_channels := [],
    soft_ot_shutdown := 75, soft_hysteresis := 70 }

/-- The measurement row that `process_card_report` assembles for `repC5w`. -/
def rowC5w : Measurement :=
  { elapsed_time := 0, card_serial := "DT0w", channel := 0, temperature := 25,
    load_power := some 1, ot_shutdown_t := 80, ot_ev := false, voltage := 12,
    current := 1, steady_state := false, temp_rate_per_min := none }

/-- The monitor history after processing `repC5w` once at elapsed time 0. -/
def histC5w : SHist := [("DT0w", [(0, [(0, 25)])])]

/-- First row of `report_cards` on the crate `[("DT01", cardC2)]` when
`serials_to_monitor = ["DT01"]` is passed through the monitor call site: the serial
list itself sits in the row's `elapsed_time` field. -/
def rowC9a : MgrRow :=
  { elapsed_time := some (El.serials ["DT01"]), card_serial := "DT01", channel := 0,
    temperature := 30, load_power := some chC2a.load_power, ot_shutdown_t := 80,
    ot_ev := false, voltage := 12, current := 1, steady_state := false,
    temp_rate_per_min := none }

/-- Second row of the same report (the auxiliary channel). -/
def rowC9b : MgrRow :=
  { elapsed_time := some (El.serials ["DT01"]), card_serial := "DT01", channel := 1,
    temperature := 30, load_power := some chC2aux.load_power, ot_shutdown_t := 80,
    ot_ev := false, voltage := 12, current := 1, steady_state := false,
    temp_rate_per_min := none }

/-- Manager history after that first cycle: one `(serial-list, temperature)` sample
per channel. -/
def histC9 : MHist :=
  [("DT01", [(0, [(El.serials ["DT01"], 30)]), (1, [(El.serials ["DT01"], 30)])])]

/-- Full result of that `report_cards` call. -/
def rC9 : RCState :=
  { cards := [("DT01", cardC2)], hist := histC9, ot_per_card := [false],
    measurements := [rowC9a, rowC9b], steady_states := [("DT01", false, [])] }

/-! Helper lemmas shared between several claims. -/

theorem except_bind_ok {α β : Type} (x : Except String α) (f : α → Except String β)
    (b : β) (h : (x >>= f) = .ok b) : ∃ a, x = .ok a ∧ f a = .ok b := by
  cases x with
  | error e => simp [Bind.bind, Except.bind] at h
  | ok a => exact ⟨a, rfl, by simpa [Bind.bind, Except.bind] using h⟩

theorem set_load_power_zero (ch : Channel) (h : 0 ≤ ch.max_power) :
    (ch.set_load_power 0).load_power = 0 := by
  unfold Channel.set_load_power Channel.load_power
  simp only [gt_iff_lt, not_lt.mpr h, if_neg (not_lt.mpr h)]
  norm_num [pyInt]

theorem set_load_power_zero_idem (ch : Channel) :
    (ch.set_load_power 0).set_load_power 0 = ch.set_load_power 0 := rfl

theorem shutdown_card_channels (c : DIOTCard) :
    c.shutdown_all_loads.load_channels =
      c.load_channels.dropLast.map (fun ch => ch.set_load_power 0)
        ++ c.load_channels.getLast?.toList := rfl

theorem shutdown_card_idem (c : DIOTCard) :
    c.shutdown_all_loads.shutdown_all_loads = c.shutdown_all_loads := by
  rcases List.eq_nil_or_concat c.load_channels with h | ⟨l, a, h⟩ <;>
    · unfold DIOTCard.shutdown_all_loads DIOTCard.set_all_load_power
      simp [h, List.dropLast_concat, List.getLast?_concat, List.map_map,
        Function.comp_def, set_load_power_zero_idem]

theorem shutdown_dropLast_zero (c : DIOTCard) :
    ∀ ch ∈ c.shutdown_all_loads.load_channels.dropLast,
      0 ≤ ch.max_power → ch.load_power = 0 := by
  intro ch hch hpos
  rcases List.eq_nil_or_concat c.load_channels with h | ⟨l, a, h⟩
  · rw [shutdown_card_channels, h] at hch
    simp at hch
  · rw [shutdown_card_channels, h] at hch
    simp only [List.concat_eq_append, List.dropLast_concat, List.getLast?_concat,
      Option.toList_some, List.dropLast_concat] at hch
    rcases List.mem_map.mp hch with ⟨x, _, rfl⟩
    exact set_load_power_zero x hpos

theorem shutdown_aux_untouched (c : DIOTCard) :
    c.shutdown_all_loads.load_channels.getLast? = c.load_channels.getLast? := by
  rcases List.eq_nil_or_concat c.load_channels with h | ⟨l, a, h⟩ <;>
    · rw [shutdown_card_channels, h]
      simp [List.dropLast_concat, List.getLast?_concat]

theorem process_channels_spec (card_id : String) (voltage current : ℚ) (cap : ℕ)
    (thr elapsed : ℚ) (ws : Option ℕ) :
    ∀ (chans : List ChannelReport) (ix : ℕ) (hist : SHist) (ms : List Measurement)
      (ss : List Bool) (rates : List (Option ℚ)) (h2 : SHist),
      process_channels card_id voltage current cap thr elapsed ws chans ix hist
          = .ok (ms, ss, rates, h2) →
      ss = ms.map (·.steady_state) ∧ ms.length = chans.length := by
  intro chans
  induction chans with
  | nil =>
    intro ix hist ms ss rates h2 h
    simp only [process_channels, Except.ok.injEq, Prod.mk.injEq] at h
    obtain ⟨h1, h2', -, -⟩ := h
    subst h1; subst h2'
    exact ⟨rfl, rfl⟩
  | cons ch tl ih =>
    intro ix hist ms ss rates h2 h
    simp only [process_channels] at h
    obtain ⟨rs, hc, h⟩ := except_bind_ok _ _ _ h
    obtain ⟨tlv, hrec, h⟩ := except_bind_ok _ _ _ h
    simp only [Except.ok.injEq, Prod.mk.injEq] at h
    obtain ⟨hms, hss, -, -⟩ := h
    obtain ⟨ihss, ihlen⟩ :=
      ih (ix + 1) (shistAppend hist card_id ix cap (elapsed, ch.temperature))
        tlv.1 tlv.2.1 tlv.2.2.1 tlv.2.2.2 hrec
    subst hms; subst hss
    simp [ihss, ihlen]

/-!  C1.  The claim says the reported `ot_ev` flag is `temperature >= ot_shutdown_t`
for the threshold reported in the same row.  The code (`diot/cards.py` line 222)
compares against `self._soft_ot_shutdown`, which `init_config` sets
`SOFT_OT_THRESHOLD = 5` degrees below the configured (and reported) threshold. -/

/-- C1 counterexample: a channel at 77 °C on a card configured with
`ot_shutdown = 80` gets `ot_ev = true` although `77 >= 80` is false — the flag and the
comparison against the row's own `ot_shutdown` threshold disagree. -/
theorem C1_counterexample :
    ((cardC1.init_config 80 75).report).channels.map
        (fun r => (r.ot_ev, decide (r.temperature ≥ r.ot_shutdown)))
      = [(true, false)] := by
  norm_num [cardC1, chC1, DIOTCard.report, DIOTCard.init_config, Channel.mkReport,
    SOFT_OT_THRESHOLD]

/-- C1 (amended): in every card report produced after `init_config ot hys`, a
channel's `ot_ev` flag is true exactly when its reported temperature is at least
`ot - SOFT_OT_THRESHOLD`, i.e. `SOFT_OT_THRESHOLD = 5` degrees below the threshold
reported in the row's `ot_shutdown` field (which equals `ot`). -/
theorem C1_ot_event_soft_threshold (card : DIOTCard) (ot hys : ℚ)
    (rep : ChannelReport)
    (hmem : rep ∈ ((card.init_config ot hys).report).channels) :
    rep.ot_ev = decide (rep.temperature ≥ ot - SOFT_OT_THRESHOLD)
      ∧ rep.ot_shutdown = ot := by
  have hch : ((card.init_config ot hys).report).channels
      = ((card.load_channels.map
            (fun ch => { ch with ot_shutdown := ot, hysteresis := hys })).map
              Channel.mkReport
          ++ (card.diot_conn_channels.map
            (fun s => { s with ot_shutdown := ot, hysteresis := hys })).map
              SensorChannel.mkReport).map
          (fun rep =>
            { rep with ot_ev := decide (rep.temperature ≥ ot - SOFT_OT_THRESHOLD) }) :=
    rfl
  rw [hch] at hmem
  rcases List.mem_map.mp hmem with ⟨r0, hr0, rfl⟩
  refine ⟨rfl, ?_⟩
  rcases List.mem_append.mp hr0 with h | h <;>
    · rcases List.mem_map.mp h with ⟨x, hx, rfl⟩
      rcases List.mem_map.mp hx with ⟨y, -, rfl⟩
      rfl

theorem repC1_mem : repC1 ∈ ((cardC1.init_config 80 75).report).channels := by
  have h : ((cardC1.init_config 80 75).report).channels = [repC1] := by
    norm_num [cardC1, chC1, repC1, DIOTCard.report, DIOTCard.init_config,
      Channel.mkReport, Channel.load_power, SOFT_OT_THRESHOLD]
  rw [h]
  exact List.mem_singleton.mpr rfl

/-- C1 witness: the amended statement evaluated on the concrete card `cardC1`. -/
theorem C1_ot_event_soft_threshold_witness :
    repC1.ot_ev = decide (repC1.temperature ≥ 80 - SOFT_OT_THRESHOLD)
      ∧ repC1.ot_shutdown = 80 :=
  C1_ot_event_soft_threshold cardC1 80 75 repC1 repC1_mem

/-!  C2.  The claim says `shutdown_all_loads` zeroes every channel including the
auxiliary one.  `DIOTCard.set_all_load_power` (line 210) iterates
`self.load_channels[:-1]`, so the auxiliary (last) channel keeps its power. -/

/-- C2 counterexample: on a card whose auxiliary channel is at full duty (3 W),
`shutdown_all_loads` leaves that channel at 3 W, and a subsequent `report()` still
shows `load_power = 3` for it. -/
theorem C2_counterexample :
    ((cardC2.shutdown_all_loads).report).channels.map (·.load_power)
        = [some 0, some 3]
      ∧ (cardC2.shutdown_all_loads).load_channels.getLast? = some chC2aux
      ∧ chC2aux.load_power = 3 := by
  refine ⟨?_, rfl, ?_⟩ <;>
    norm_num [cardC2, chC2a, chC2aux, DIOTCard.shutdown_all_loads,
      DIOTCard.set_all_load_power, DIOTCard.report, Channel.mkReport,
      Channel.set_load_power, Channel.load_power, pyInt]

/-- C2 (amended): after `shutdown_all_loads` — directly on a card or through
`DIOTCrateManager.shutdown_all_loads` — every load channel except the auxiliary
(last) one has load power zero (given the physical `max_power ≥ 0`); the auxiliary
channel is left untouched; a report's `load_power` column mirrors the channel states,
so subsequent reports show zero on exactly those channels; and the manager-level
operation is idempotent. -/
theorem C2_shutdown_all_loads_amended :
    (∀ c : DIOTCard, ∀ ch ∈ c.shutdown_all_loads.load_channels.dropLast,
        0 ≤ ch.max_power → ch.load_power = 0)
  ∧ (∀ c : DIOTCard,
        c.shutdown_all_loads.load_channels.getLast? = c.load_channels.getLast?)
  ∧ (∀ c : DIOTCard, (c.report).channels.map (·.load_power)
        = c.load_channels.map (fun ch => some ch.load_power)
          ++ c.diot_conn_channels.map (fun _ => (none : Option ℚ)))
  ∧ (∀ m : MgrCards, ∀ p ∈ shutdown_all_loads_mgr m,
        ∀ ch ∈ p.2.load_channels.dropLast, 0 ≤ ch.max_power → ch.load_power = 0)
  ∧ (∀ m : MgrCards,
        shutdown_all_loads_mgr (shutdown_all_loads_mgr m)
          = shutdown_all_loads_mgr m) := by
  refine ⟨shutdown_dropLast_zero, shutdown_aux_untouched, ?_, ?_, ?_⟩
  · intro c
    simp [DIOTCard.report, List.map_map, Function.comp_def, Channel.mkReport,
      SensorChannel.mkReport]
  · intro m p hp ch hch h0
    simp only [shutdown_all_loads_mgr, List.mem_map] at hp
    obtain ⟨q, -, rfl⟩ := hp
    exact shutdown_dropLast_zero q.2 ch hch h0
  · intro m
    simp [shutdown_all_loads_mgr, List.map_map, Function.comp_def, shutdown_card_idem]

/-- C2 witness: the amended statement evaluated on the concrete card `cardC2`. -/
theorem C2_shutdown_all_loads_amended_witness :
    (chC2a.set_load_power 0).load_power = 0
      ∧ cardC2.shutdown_all_loads.load_channels.getLast?
          = cardC2.load_channels.getLast? :=
  ⟨C2_shutdown_all_loads_amended.1 cardC2 (chC2a.set_load_power 0)
      (List.mem_singleton.mpr rfl) (by decide),
   C2_shutdown_all_loads_amended.2.1 cardC2⟩

/-!  C5.  The claim says the card verdict is the AND over the monitored channels
excluding non-load sensors, and that a card with no monitored channels is not steady.
`process_card_report` (line 288) takes `all(ss_per_ch.values())` over every channel of
the report — connector sensor channels included — and Python's `all` of an empty
collection is `True`. -/

/-- C5 counterexample: a card report with no channels at all is judged steady
(`is_steady = true` in the returned tuple), the opposite of the claimed
"no monitored channels means not steady". -/
theorem C5_counterexample :
    process_card_report [] 61 90 1 [] repC5 0
        = .ok (false, [], true, [], [("DT00", true, 0)])
      ∧ repC5.channels = [] :=
  ⟨rfl, rfl⟩

/-- C5 (amended): the card-level steady verdict returned by `process_card_report` is
the logical AND of the per-channel verdicts of all channels present in the card
report — connector sensor channels included, with no exclusion — one verdict per
report channel; a card report with no channels is therefore judged steady
(vacuous truth). -/
theorem C5_card_verdict_amended (hist : SHist) (cap : ℕ) (window thr : ℚ)
    (reg : SSRegistry) (report : CardReport) (elapsed : ℚ) (ot : Bool)
    (ms : List Measurement) (steady : Bool) (h2 : SHist) (r2 : SSRegistry)
    (h : process_card_report hist cap window thr reg report elapsed
          = .ok (ot, ms, steady, h2, r2)) :
    steady = (ms.map (·.steady_state)).all id
      ∧ ms.length = report.channels.length := by
  simp only [process_card_report] at h
  obtain ⟨ws, hws, h⟩ := except_bind_ok _ _ _ h
  obtain ⟨pc, hpc, h⟩ := except_bind_ok _ _ _ h
  simp only [Except.ok.injEq, Prod.mk.injEq] at h
  obtain ⟨-, hms, hsteady, -, -⟩ := h
  obtain ⟨hss, hlen⟩ := process_channels_spec report.card_serial report.voltage
    report.current cap thr elapsed ws report.channels 0 hist pc.1 pc.2.1 pc.2.2.1
    pc.2.2.2 hpc
  subst hms; subst hsteady
  rw [hss]
  exact ⟨rfl, hlen⟩

/-- C5 witness: the amended statement evaluated on the one-channel report `repC5w`. -/
theorem C5_card_verdict_amended_witness :
    false = ([rowC5w].map (·.steady_state)).all id
      ∧ [rowC5w].length = repC5w.channels.length :=
  C5_card_verdict_amended [] 61 90 1 [] repC5w 0 false [rowC5w] false histC5w []
    rfl

/-!  C8.  The claim (and spec §4.2) says the buffer capacity is
`ceil(windowDuration / expectedPerCardInterval) + 1`.  The code
(`diot/monitor.py` line 114-116) computes
`int(window * (SECONDS_PER_BOARD / n_cards)) + 1` — a truncating `int()`, not a
ceiling — so for any non-integral quotient the fixed capacity is one less than the
claimed value. -/

theorem set_history_buffer_depth_eq (w : ℚ) (n : ℕ) (hw : 0 ≤ w) :
    set_history_buffer_depth w n = ⌊w * SECONDS_PER_BOARD / (n : ℚ)⌋ + 1 := by
  unfold set_history_buffer_depth pyInt
  have h1 : (0:ℚ) ≤ w * (SECONDS_PER_BOARD / (n : ℚ)) :=
    mul_nonneg hw (div_nonneg (by norm_num [SECONDS_PER_BOARD]) (Nat.cast_nonneg n))
  rw [if_neg (not_lt.mpr h1), mul_div_assoc]

/-- C8 counterexample: with the default 1.5-minute window (90 s) and 4 cards the code
fixes capacity `int(90 * (1/4)) + 1 = 23`, while the claimed formula
`ceil(90 / (SECONDS_PER_BOARD * 4)) + 1` gives 24. -/
theorem C8_counterexample :
    set_history_buffer_depth 90 4 = 23
      ∧ spec_history_capacity 90 (SECONDS_PER_BOARD * 4) = 24 := by
  constructor
  · norm_num [set_history_buffer_depth, pyInt, SECONDS_PER_BOARD]
  · unfold spec_history_capacity SECONDS_PER_BOARD
    have h : ⌈(90 : ℚ) / (1 * 4)⌉ = 23 := by
      rw [Int.ceil_eq_iff]
      norm_num
    rw [h]
    norm_num

/-- C8 (amended): for a nonnegative window duration the capacity fixed by
`set_history_buffer` equals `floor(windowDuration * SECONDS_PER_BOARD / n_cards) + 1`
— a truncating division, not a ceiling — and the capacity is antitone in the card
count (it decreases as the expected real per-tick interval grows with more cards). -/
theorem C8_history_capacity_amended :
    (∀ (w : ℚ) (n : ℕ), 0 ≤ w →
        set_history_buffer_depth w n = ⌊w * SECONDS_PER_BOARD / (n : ℚ)⌋ + 1)
  ∧ (∀ (w : ℚ) (n₁ n₂ : ℕ), 0 ≤ w → 0 < n₁ → n₁ ≤ n₂ →
        set_history_buffer_depth w n₂ ≤ set_history_buffer_depth w n₁) := by
  refine ⟨set_history_buffer_depth_eq, ?_⟩
  intro w n₁ n₂ hw h1 h12
  rw [set_history_buffer_depth_eq w n₂ hw, set_history_buffer_depth_eq w n₁ hw]
  have hn : (0:ℚ) < (n₁ : ℚ) := by exact_mod_cast h1
  have hc : ((n₁ : ℚ)) ≤ (n₂ : ℚ) := by exact_mod_cast h12
  have hnum : (0:ℚ) ≤ w * SECONDS_PER_BOARD :=
    mul_nonneg hw (by norm_num [SECONDS_PER_BOARD])
  apply add_le_add_right
  apply Int.floor_le_floor
  gcongr

/-- C8 witness: the amended statement evaluated at a 90-second window with 4 (and 2)
cards. -/
theorem C8_history_capacity_amended_witness :
    set_history_buffer_depth 90 4 = ⌊(90 : ℚ) * SECONDS_PER_BOARD / ((4 : ℕ) : ℚ)⌋ + 1
      ∧ set_history_buffer_depth 90 4 ≤ set_history_buffer_depth 90 2 :=
  ⟨C8_history_capacity_amended.1 90 4 (by decide),
   C8_history_capacity_amended.2 90 2 4 (by decide) (by decide) (by decide)⟩

/-!  C7.  The `finally` block of `monitor` (lines 407-430) runs on every exit path,
but the steady-state summary is guarded by `if self.steady_registry:` — a run whose
registry stayed empty emits no summary. -/

theorem cycleCardsFold_fields (e : ℚ) (cs : List (String × Bool × Bool)) :
    ∀ st : LoopState, (cycleCardsFold e st cs).written = st.written
      ∧ (cycleCardsFold e st cs).measurements = st.measurements := by
  induction cs with
  | nil => intro st; exact ⟨rfl, rfl⟩
  | cons c tl ih => intro st; exact ih _

theorem cycleCardsFold_ot (e : ℚ) (cs : List (String × Bool × Bool)) :
    ∀ st : LoopState,
      (cycleCardsFold e st cs).ot_ev_detected
        = (st.ot_ev_detected || cs.any (·.2.1)) := by
  induction cs with
  | nil => intro st; simp [cycleCardsFold]
  | cons c tl ih =>
    intro st
    have h := ih ({ st with
      ot_ev_detected := st.ot_ev_detected || c.2.1,
      state_info := aset st.state_info c.1 c.2.2,
      steady_registry := (modify_ss_registry st.steady_registry c.1 c.2.2 e).1 })
    simp only [cycleCardsFold, List.foldl_cons] at h ⊢
    rw [h]
    simp [Bool.or_assoc]

theorem monitor_cycle_state_written (cfg : MonitorConfig) (st : LoopState) (e : ℚ)
    (cs : List (String × Bool × Bool)) (rows : List Measurement)
    (h : st.written = (if cfg.save_every_iteration then st.measurements else [])) :
    (monitor_cycle_state cfg st e cs rows).written
      = if cfg.save_every_iteration then
          (monitor_cycle_state cfg st e cs rows).measurements
        else [] := by
  obtain ⟨hw, hm⟩ := cycleCardsFold_fields e cs st
  cases hs : cfg.save_every_iteration <;>
    simp_all [monitor_cycle_state]

theorem monitor_cycle_state_ot (cfg : MonitorConfig) (st : LoopState) (e : ℚ)
    (cs : List (String × Bool × Bool)) (rows : List Measurement) :
    (monitor_cycle_state cfg st e cs rows).ot_ev_detected
      = (st.ot_ev_detected || cs.any (·.2.1)) := by
  simp only [monitor_cycle_state]
  exact cycleCardsFold_ot e cs st

theorem monitor_loop_written_inv (cfg : MonitorConfig) (outs : List CycleOutcome) :
    ∀ st : LoopState,
      st.written = (if cfg.save_every_iteration then st.measurements else []) →
      ((monitor_loop cfg st outs).1).written
        = if cfg.save_every_iteration then
            ((monitor_loop cfg st outs).1).measurements
          else [] := by
  induction outs with
  | nil => intro st h; exact h
  | cons o tl ih =>
    intro st h
    cases o with
    | raise msg => exact h
    | cycle e cs rows =>
      have h2 := monitor_cycle_state_written cfg st e cs rows h
      simp only [monitor_loop]
      split
      · exact h2
      · split
        · exact h2
        · exact ih _ h2

/-- C7 counterexample: a user interrupt raised from the first sampling cycle, with
batch saving and end-of-run shutdown configured.  The finalize step runs — loads are
shut down and the (empty) measurement backlog is written — but no steady-state
summary is emitted because the steady registry is empty, contradicting the claim that
the summary is emitted on every run. -/
theorem C7_counterexample :
    (monitor_run cfgC7 [.raise "KeyboardInterrupt"]).summary_emitted = false
      ∧ (monitor_run cfgC7 [.raise "KeyboardInterrupt"]).loads_shutdown = true
      ∧ (monitor_run cfgC7 [.raise "KeyboardInterrupt"]).written
          = (monitor_run cfgC7 [.raise "KeyboardInterrupt"]).collected
      ∧ (monitor_run cfgC7 [.raise "KeyboardInterrupt"]).exit
          = .exn "KeyboardInterrupt" :=
  ⟨rfl, rfl, rfl, rfl⟩

/-- C7 (amended): on every run of the monitor loop — whatever mix of completed cycles
and exceptions occurred, and however the loop exited (duration expiry, `break`, or an
exception/user interrupt) — the finalize step yields: every measurement collected by
completed cycles is persisted (incrementally when `save_every_iteration`, otherwise by
the final batch write), loads are shut down exactly when `shutdown_at_end` is
configured, and the steady-state summary is emitted exactly when the steady registry
is non-empty. -/
theorem C7_finalize_always_runs (cfg : MonitorConfig) (outs : List CycleOutcome) :
    (monitor_run cfg outs).written = (monitor_run cfg outs).collected
  ∧ (monitor_run cfg outs).loads_shutdown = cfg.shutdown_at_end
  ∧ (monitor_run cfg outs).summary_emitted
      = !(monitor_run cfg outs).registry.isEmpty := by
  refine ⟨?_, rfl, rfl⟩
  have h := monitor_loop_written_inv cfg outs initLoopState (by simp [initLoopState])
  simp only [monitor_run]
  cases hs : cfg.save_every_iteration <;> simp_all

/-!  C10.  Within one `monitor` call the flag `ot_ev_detected` only ever accumulates
(`ot_ev_detected |= card_ot_ev` on line 380), and with `stop_on_ot` the loop breaks at
the end of the first cycle after any OT event was observed (lines 394-396). -/

theorem monitor_loop_ot_monotone (cfg : MonitorConfig) (outs : List CycleOutcome) :
    ∀ st : LoopState, st.ot_ev_detected = true →
      ((monitor_loop cfg st outs).1).ot_ev_detected = true := by
  induction outs with
  | nil => intro st h; exact h
  | cons o tl ih =>
    intro st h
    cases o with
    | raise msg => exact h
    | cycle e cs rows =>
      have hot : (monitor_cycle_state cfg st e cs rows).ot_ev_detected = true := by
        rw [monitor_cycle_state_ot, h, Bool.true_or]
      simp only [monitor_loop]
      split
      · exact hot
      · split
        · exact hot
        · exact ih _ hot

theorem monitor_loop_break_on_ot (cfg : MonitorConfig)
    (hstopot : cfg.stop_on_ot = true) (hstopss : cfg.stop_on_steady_state = false) :
    ∀ (outs : List CycleOutcome) (st : LoopState) (i : ℕ),
      st.ot_ev_detected = false →
      outs.findIdx? outcomeHasOT = some i →
      (∀ o ∈ outs, outcomeIsCycle o = true) →
      (monitor_loop cfg st outs).2.1 = .broke
        ∧ (monitor_loop cfg st outs).2.2 = i + 1 := by
  intro outs
  induction outs with
  | nil =>
    intro st i h0 hfind hall
    simp [List.findIdx?] at hfind
  | cons o tl ih =>
    intro st i h0 hfind hall
    cases o with
    | raise msg =>
      have hcyc := hall (.raise msg) (by simp)
      simp [outcomeIsCycle] at hcyc
    | cycle e cs rows =>
      rw [List.findIdx?_cons] at hfind
      have hot : (monitor_cycle_state cfg st e cs rows).ot_ev_detected
          = cs.any (·.2.1) := by
        rw [monitor_cycle_state_ot, h0, Bool.false_or]
      by_cases hcs : cs.any (·.2.1) = true
      · rw [if_pos (by simpa [outcomeHasOT] using hcs)] at hfind
        simp only [Option.some.injEq] at hfind
        subst hfind
        simp only [monitor_loop]
        rw [if_pos (by rw [hstopot, hot, hcs]; rfl)]
        exact ⟨rfl, rfl⟩
      · have hcs2 : outcomeHasOT (.cycle e cs rows) = false := by
          simpa [outcomeHasOT] using hcs
        rw [if_neg (by simp [hcs2])] at hfind
        rw [List.findIdx?_succ] at hfind
        simp only [Option.map_eq_some'] at hfind
        obtain ⟨j, hj, rfl⟩ := hfind
        have h02 : (monitor_cycle_state cfg st e cs rows).ot_ev_detected = false := by
          rw [hot]
          exact Bool.not_eq_true _ ▸ (by simpa using hcs)
        have hrec := ih (monitor_cycle_state cfg st e cs rows) j h02 hj
          (fun o ho => hall o (by simp [ho]))
        simp only [monitor_loop]
        rw [if_neg (by rw [hot]; simp [hcs]), if_neg (by rw [hstopss]; simp)]
        exact ⟨hrec.1, by rw [hrec.2]⟩

/-- C10: within one monitor call the OT-detected flag is monotone — once any cycle
has reported an OT event the flag stays true through every later cycle — and when
`stop_on_ot` is enabled (with the steady-state stop disabled), a run of completed
cycles exits with a `break` after consuming exactly `i + 1` cycles, where `i` is the
index of the first cycle containing an OT event, even if the over-temperature
condition has cleared in later cycles. -/
theorem C10_ot_flag_monotone_and_stop :
    (∀ (cfg : MonitorConfig) (st : LoopState) (outs : List CycleOutcome),
        st.ot_ev_detected = true →
        ((monitor_loop cfg st outs).1).ot_ev_detected = true)
  ∧ (∀ (cfg : MonitorConfig) (outs : List CycleOutcome) (i : ℕ),
        cfg.stop_on_ot = true → cfg.stop_on_steady_state = false →
        outs.findIdx? outcomeHasOT = some i →
        (∀ o ∈ outs, outcomeIsCycle o = true) →
        (monitor_loop cfg initLoopState outs).2.1 = .broke
          ∧ (monitor_loop cfg initLoopState outs).2.2 = i + 1) :=
  ⟨fun cfg st outs h => monitor_loop_ot_monotone cfg outs st h,
   fun cfg outs i h1 h2 h3 h4 =>
     monitor_loop_break_on_ot cfg h1 h2 outs initLoopState i rfl h3 h4⟩

/-- C10 witness: on the three-cycle trace `outsC10` (OT in the second cycle, cleared
in the third) the loop with `stop_on_ot` breaks after consuming two cycles, and a
state with the flag already set keeps it set. -/
theorem C10_ot_flag_monotone_and_stop_witness :
    ((monitor_loop cfgC10 { initLoopState with ot_ev_detected := true } outsC10).1).ot_ev_detected = true
      ∧ ((monitor_loop cfgC10 initLoopState outsC10).2.1 = .broke
          ∧ (monitor_loop cfgC10 initLoopState outsC10).2.2 = 1 + 1) :=
  ⟨C10_ot_flag_monotone_and_stop.1 cfgC10 { initLoopState with ot_ev_detected := true }
      outsC10 rfl,
   C10_ot_flag_monotone_and_stop.2 cfgC10 outsC10 1 rfl rfl (by decide) (by decide)⟩

/-!  C4.  The monitor's per-channel rate and verdict computation
(`_check_ch_steady_state` with `_find_window_start_idx`). -/

theorem qC4_td_nonpos : ((5:ℚ) - 5) ≤ 0 := by norm_num

theorem qC4_td_pos : (0:ℚ) < 30 - 0 := by norm_num

theorem qC4_span : (60:ℚ) ≤ 60 - 0 := by norm_num

/-- C4: (i) an absent window start index yields "not steady, no rate" with no error;
(ii) a window whose elapsed time is ≤ 0 likewise yields "not steady, no rate" with no
error; (iii) otherwise the computed rate is
`(latestTemp - firstTemp) * 60 / (latestTime - firstTime)` over the trailing window
and the verdict is steady exactly when `abs(rate) <= ss_threshold`; (iv) the window
start index is absent when the card is unknown to the history or the channel history
has fewer than two samples or spans less than the window duration, and is present
whenever the history has at least two samples spanning at least the window. -/
theorem C4_rate_and_verdict :
    (∀ (ch : List (ℚ × ℚ)) (thr : ℚ),
        check_ch_steady_state ch thr none = .ok (none, false))
  ∧ (∀ (ch : List (ℚ × ℚ)) (thr : ℚ) (i : ℕ) (first last : ℚ × ℚ),
        ch[i]? = some first → ch.getLast? = some last → last.1 - first.1 ≤ 0 →
        check_ch_steady_state ch thr (some i) = .ok (none, false))
  ∧ (∀ (ch : List (ℚ × ℚ)) (thr : ℚ) (i : ℕ) (first last : ℚ × ℚ),
        ch[i]? = some first → ch.getLast? = some last → 0 < last.1 - first.1 →
        check_ch_steady_state ch thr (some i)
          = .ok (some ((last.2 - first.2) * 60 / (last.1 - first.1)),
                 decide (|(last.2 - first.2) * 60 / (last.1 - first.1)| ≤ thr)))
  ∧ (∀ (ch : List (ℚ × ℚ)) (w : ℚ), find_window_start_idx false ch w = .ok none)
  ∧ (∀ (ch : List (ℚ × ℚ)) (w : ℚ) (first last : ℚ × ℚ),
        ch.head? = some first → ch.getLast? = some last →
        (ch.length < 2 ∨ last.1 - first.1 < w) →
        find_window_start_idx true ch w = .ok none)
  ∧ (∀ (ch : List (ℚ × ℚ)) (w : ℚ) (first last : ℚ × ℚ),
        ch.head? = some first → ch.getLast? = some last →
        2 ≤ ch.length → w ≤ last.1 - first.1 →
        ∃ i, find_window_start_idx true ch w = .ok (some i)) := by
  refine ⟨fun ch thr => rfl, ?_, ?_, fun ch w => rfl, ?_, ?_⟩
  · intro ch thr i first last hi hl htd
    simp only [check_ch_steady_state, hi, hl]
    rw [if_pos htd]
  · intro ch thr i first last hi hl htd
    simp only [check_ch_steady_state, hi, hl]
    rw [if_neg (not_le.mpr htd), mul_div_assoc]
  · intro ch w first last hh hl hshort
    simp only [find_window_start_idx, Bool.not_true, Bool.false_eq_true,
      if_false, hh, hl]
    rw [if_neg]
    rintro ⟨h1, h2⟩
    rcases hshort with h3 | h3
    · omega
    · exact absurd (lt_of_le_of_lt h2 h3) (lt_irrefl w)
  · intro ch w first last hh hl hlen hspan
    simp only [find_window_start_idx, Bool.not_true, Bool.false_eq_true,
      if_false, hh, hl]
    rw [if_pos ⟨hlen, hspan⟩]
    exact ⟨_, rfl⟩

/-- C4 witness: the detector evaluated on concrete histories — an absent index, a
zero-width window, a 30-second window heating at 60 K/min (not steady at threshold
1), an unknown card, a single-sample history, and a full 60-second window. -/
theorem C4_rate_and_verdict_witness :
    check_ch_steady_state [((0:ℚ), (10:ℚ))] 1 none = .ok (none, false)
  ∧ check_ch_steady_state [((5:ℚ), (10:ℚ)), (5, 12)] 1 (some 0) = .ok (none, false)
  ∧ check_ch_steady_state [((0:ℚ), (10:ℚ)), (30, 40)] 1 (some 0)
      = .ok (some ((40 - 10) * 60 / (30 - 0)),
             decide (|(40 - 10) * 60 / ((30:ℚ) - 0)| ≤ 1))
  ∧ find_window_start_idx false [((0:ℚ), (10:ℚ))] 60 = .ok none
  ∧ find_window_start_idx true [((0:ℚ), (10:ℚ))] 60 = .ok none
  ∧ ∃ i, find_window_start_idx true [((0:ℚ), (10:ℚ)), (60, 11)] 60 = .ok (some i) :=
  ⟨C4_rate_and_verdict.1 [((0:ℚ), (10:ℚ))] 1,
   C4_rate_and_verdict.2.1 [((5:ℚ), (10:ℚ)), (5, 12)] 1 0 (5, 10) (5, 12) rfl rfl
     qC4_td_nonpos,
   C4_rate_and_verdict.2.2.1 [((0:ℚ), (10:ℚ)), (30, 40)] 1 0 (0, 10) (30, 40) rfl rfl
     qC4_td_pos,
   C4_rate_and_verdict.2.2.2.1 [((0:ℚ), (10:ℚ))] 60,
   C4_rate_and_verdict.2.2.2.2.1 [((0:ℚ), (10:ℚ))] 60 (0, 10) (0, 10) rfl rfl
     (Or.inl (by decide)),
   C4_rate_and_verdict.2.2.2.2.2 [((0:ℚ), (10:ℚ)), (60, 11)] 60 (0, 10) (60, 11)
     rfl rfl (by decide) qC4_span⟩

/-!  C6.  Association-list (Python dict) lemmas, then the power-distribution claim.
The claim says the even per-channel share excludes the auxiliary channel;
`_set_single_card_load_power` (manager.py line 109) divides by
`len(card.load_channels)` — all 17 channels, auxiliary included — and
`set_all_load_power` then applies that share to the 16 non-auxiliary channels only. -/

theorem aget_cons {κ α : Type} [DecidableEq κ] (p : κ × α) (tl : List (κ × α))
    (k : κ) : aget (p :: tl) k = if p.1 = k then some p.2 else aget tl k := by
  by_cases h : p.1 = k
  · rw [if_pos h]
    unfold aget
    rw [List.find?_cons_of_pos tl (by simp [h])]
    rfl
  · rw [if_neg h]
    unfold aget
    rw [List.find?_cons_of_neg tl (by simp [h])]

theorem aset_cons_ne {κ α : Type} [DecidableEq κ] (p : κ × α) (tl : List (κ × α))
    (k : κ) (v : α) (h : ¬ p.1 = k) : aset (p :: tl) k v = p :: aset tl k v := by
  unfold aset
  rw [List.find?_cons_of_neg tl (by simp [h])]
  by_cases hfs : (tl.find? (fun q => decide (q.1 = k))).isSome = true
  · rw [if_pos hfs, if_pos hfs]
    simp [h]
  · rw [if_neg hfs, if_neg hfs]
    simp

theorem aget_map_update {κ α : Type} [DecidableEq κ] (k k' : κ) (v : α)
    (h : ¬ k' = k) :
    ∀ tl : List (κ × α),
      aget (tl.map (fun p => if p.1 = k then (k, v) else p)) k' = aget tl k' := by
  intro tl
  induction tl with
  | nil => rfl
  | cons q tl ih =>
    simp only [List.map_cons]
    by_cases hq : q.1 = k
    · rw [if_pos hq, aget_cons, aget_cons,
        if_neg (show ¬ ((k, v) : κ × α).1 = k' from Ne.symm h),
        if_neg (show ¬ q.1 = k' from by rw [hq]; exact Ne.symm h)]
      exact ih
    · rw [if_neg hq, aget_cons, aget_cons]
      by_cases hq2 : q.1 = k' <;> simp [hq2, ih]

theorem aget_aset_self {κ α : Type} [DecidableEq κ] (l : List (κ × α)) (k : κ)
    (v : α) : aget (aset l k v) k = some v := by
  induction l with
  | nil =>
    show aget [(k, v)] k = some v
    rw [aget_cons, if_pos rfl]
  | cons p tl ih =>
    by_cases h : p.1 = k
    · unfold aset
      rw [List.find?_cons_of_pos tl (by simp [h])]
      show aget (List.map (fun q => if q.1 = k then (k, v) else q) (p :: tl)) k
        = some v
      rw [List.map_cons, if_pos h, aget_cons, if_pos rfl]
    · rw [aset_cons_ne p tl k v h, aget_cons, if_neg h]
      exact ih

theorem aget_aset_ne {κ α : Type} [DecidableEq κ] (l : List (κ × α)) (k k' : κ)
    (v : α) (h : ¬ k' = k) : aget (aset l k v) k' = aget l k' := by
  induction l with
  | nil =>
    show aget [(k, v)] k' = none
    rw [aget_cons, if_neg (Ne.symm h)]
    rfl
  | cons p tl ih =>
    by_cases hp : p.1 = k
    · unfold aset
      rw [List.find?_cons_of_pos tl (by simp [hp])]
      show aget (List.map (fun q => if q.1 = k then (k, v) else q) (p :: tl)) k'
        = aget (p :: tl) k'
      rw [List.map_cons, if_pos hp, aget_cons,
        aget_cons, if_neg (show ¬ ((k, v) : κ × α).1 = k' from Ne.symm h),
        if_neg (show ¬ p.1 = k' from by rw [hp]; exact Ne.symm h)]
      exact aget_map_update k k' v h tl
    · rw [aset_cons_ne p tl k v hp, aget_cons, aget_cons]
      by_cases hp2 : p.1 = k' <;> simp [hp2, ih]

theorem set_single_card_load_power_ok (m : MgrCards) (s : String) (p : ℚ)
    (card : DIOTCard) (h : aget m s = some card) :
    set_single_card_load_power m s p
      = .ok (aset m s (card.set_all_load_power
          ((if p > card.max_load_power then card.max_load_power else p)
            / (card.load_channels.length : ℚ))),
        decide (p > card.max_load_power)) := by
  unfold set_single_card_load_power
  rw [h]

theorem set_cards_loop_untouched :
    ∀ (sp : List (String × ℚ)) (acc r : MgrCards × List String) (s : String),
      (∀ q ∈ sp, ¬ q.1 = s) → set_cards_loop sp acc = .ok r →
      aget r.1 s = aget acc.1 s ∧ (s ∈ r.2 ↔ s ∈ acc.2) := by
  intro sp
  induction sp with
  | nil =>
    intro acc r s hne h
    simp only [set_cards_loop] at h
    injection h with h2
    subst h2
    exact ⟨rfl, Iff.rfl⟩
  | cons q tl ih =>
    intro acc r s hne h
    simp only [set_cards_loop] at h
    cases hget : aget acc.1 q.1 with
    | none =>
      rw [show set_single_card_load_power acc.1 q.1 q.2
          = .error ("KeyError: " ++ q.1) from by
        unfold set_single_card_load_power; rw [hget]] at h
      simp at h
    | some card =>
      rw [set_single_card_load_power_ok acc.1 q.1 q.2 card hget] at h
      have hne1 : ¬ q.1 = s := hne q (List.mem_cons_self q tl)
      have hnes : ¬ s = q.1 := fun he => hne1 he.symm
      obtain ⟨ha, hb⟩ := ih _ r s (fun q2 hq2 => hne q2 (List.mem_cons_of_mem q hq2)) h
      constructor
      · rw [ha]
        exact aget_aset_ne acc.1 q.1 s _ hnes
      · rw [hb]
        simp only [List.mem_append]
        constructor
        · rintro (hs | hs)
          · exact hs
          · rcases hite : decide (q.2 > card.max_load_power) with _ | _ <;>
              rw [hite] at hs <;> simp at hs
            exact absurd hs.symm hne1
        · exact fun hs => Or.inl hs

theorem set_cards_loop_spec :
    ∀ (sp : List (String × ℚ)) (m : MgrCards) (log : List String),
      ((sp.map (·.1)).Nodup) →
      (∀ q ∈ sp, ∃ c, aget m q.1 = some c) →
      ∃ r, set_cards_loop sp (m, log) = .ok r
        ∧ ∀ q ∈ sp, ∀ card, aget m q.1 = some card →
            aget r.1 q.1 = some (card.set_all_load_power
              ((if q.2 > card.max_load_power then card.max_load_power else q.2)
                / (card.load_channels.length : ℚ)))
            ∧ (q.1 ∈ r.2 ↔ (q.1 ∈ log ∨ q.2 > card.max_load_power)) := by
  intro sp
  induction sp with
  | nil =>
    intro m log hnd hpres
    exact ⟨(m, log), rfl, fun q hq => absurd hq (List.not_mem_nil q)⟩
  | cons q tl ih =>
    intro m log hnd hpres
    obtain ⟨c, hc⟩ := hpres q (List.mem_cons_self q tl)
    have hnd2 : (tl.map (·.1)).Nodup := (List.nodup_cons.mp hnd).2
    have hq1tl : q.1 ∉ tl.map (·.1) := (List.nodup_cons.mp hnd).1
    have hpres2 : ∀ q2 ∈ tl, ∃ c2,
        aget (aset m q.1 (c.set_all_load_power
          ((if q.2 > c.max_load_power then c.max_load_power else q.2)
            / (c.load_channels.length : ℚ)))) q2.1 = some c2 := by
      intro q2 hq2
      obtain ⟨c2, hc2⟩ := hpres q2 (List.mem_cons_of_mem q hq2)
      have hne : ¬ q2.1 = q.1 :=
        fun he => hq1tl (he ▸ List.mem_map_of_mem (·.1) hq2)
      exact ⟨c2, by rw [aget_aset_ne m q.1 q2.1 _ hne]; exact hc2⟩
    obtain ⟨r, hloop, hprops⟩ := ih _
      (log ++ if decide (q.2 > c.max_load_power) then [q.1] else []) hnd2 hpres2
    refine ⟨r, ?_, ?_⟩
    · simp only [set_cards_loop]
      rw [set_single_card_load_power_ok m q.1 q.2 c hc]
      exact hloop
    · intro q2 hq2 card hcard
      rcases List.mem_cons.mp hq2 with rfl | hq2tl
      · rw [hc] at hcard
        injection hcard with hcc
        subst hcc
        have hunt := set_cards_loop_untouched tl _ r q2.1
          (fun q3 hq3 => fun he => hq1tl (he ▸ List.mem_map_of_mem (·.1) hq3)) hloop
        constructor
        · rw [hunt.1]
          exact aget_aset_self m q2.1 _
        · rw [hunt.2]
          simp only [List.mem_append]
          constructor
          · rintro (hs | hs)
            · exact Or.inl hs
            · rcases hite : decide (q2.2 > c.max_load_power) with _ | _ <;>
                rw [hite] at hs
              · simp at hs
              · exact Or.inr (of_decide_eq_true hite)
          · rintro (hs | hs)
            · exact Or.inl hs
            · exact Or.inr (by rw [decide_eq_true hs]; exact List.mem_singleton.mpr rfl)
      · have hne : ¬ q2.1 = q.1 :=
          fun he => hq1tl (he ▸ List.mem_map_of_mem (·.1) hq2tl)
        have hcard1 : aget (aset m q.1 (c.set_all_load_power
            ((if q.2 > c.max_load_power then c.max_load_power else q.2)
              / (c.load_channels.length : ℚ)))) q2.1 = some card := by
          rw [aget_aset_ne m q.1 q2.1 _ hne]
          exact hcard
        obtain ⟨ha, hb⟩ := hprops q2 hq2tl card hcard1
        refine ⟨ha, ?_⟩
        rw [hb]
        simp only [List.mem_append]
        constructor
        · rintro (⟨hs | hs⟩ | hs)
          · exact Or.inl hs
          · rcases hite : decide (q.2 > c.max_load_power) with _ | _ <;>
              rw [hite] at hs
            · simp at hs
            · exact absurd (List.mem_singleton.mp hs) hne
          · exact Or.inr hs
        · rintro (hs | hs)
          · exact Or.inl (Or.inl hs)
          · exact Or.inr hs

/-- C6 (amended): for every `set_cards_load_power` call whose named cards are
registered (serials distinct, lists of equal length), each named card's requested
total power is clamped to that card's `max_load_power` and never set above it, the
clamp is recorded in the warning log exactly for the clamped cards, and the clamped
total is divided by the number of ALL the card's load channels — the auxiliary
channel included in the divisor — with that per-channel share applied to every load
channel except the auxiliary (last) one, which is left untouched. -/
theorem C6_set_cards_load_power_amended (cards : MgrCards) (serials : List String)
    (powers : List ℚ) (hlen : serials.length = powers.length)
    (hnodup : serials.Nodup)
    (hpresent : ∀ s ∈ serials, ∃ c, aget cards s = some c) :
    ∃ r, set_cards_load_power cards serials powers = .ok r
      ∧ ∀ q ∈ serials.zip powers, ∀ card, aget cards q.1 = some card →
          ((if q.2 > card.max_load_power then card.max_load_power else q.2)
              ≤ card.max_load_power)
          ∧ aget r.1 q.1 = some (card.set_all_load_power
              ((if q.2 > card.max_load_power then card.max_load_power else q.2)
                / (card.load_channels.length : ℚ)))
          ∧ (q.1 ∈ r.2 ↔ q.2 > card.max_load_power)
          ∧ (card.set_all_load_power
              ((if q.2 > card.max_load_power then card.max_load_power else q.2)
                / (card.load_channels.length : ℚ))).load_channels
              = card.load_channels.dropLast.map
                  (fun ch => ch.set_load_power
                    ((if q.2 > card.max_load_power then card.max_load_power else q.2)
                      / (card.load_channels.length : ℚ)))
                ++ card.load_channels.getLast?.toList := by
  have hmapfst : (serials.zip powers).map (·.1) = serials :=
    List.map_fst_zip serials powers (le_of_eq hlen)
  have hnd : ((serials.zip powers).map (·.1)).Nodup := by
    rw [hmapfst]
    exact hnodup
  have hp : ∀ q ∈ serials.zip powers, ∃ c, aget cards q.1 = some c := by
    intro q hq
    exact hpresent q.1 (List.of_mem_zip hq).1
  obtain ⟨r, hloop, hprops⟩ := set_cards_loop_spec (serials.zip powers) cards [] hnd hp
  refine ⟨r, ?_, ?_⟩
  · unfold set_cards_load_power
    rw [if_neg (fun hne => hne hlen)]
    exact hloop
  · intro q hq card hcard
    obtain ⟨ha, hb⟩ := hprops q hq card hcard
    refine ⟨?_, ha, ?_, rfl⟩
    · by_cases hgt : q.2 > card.max_load_power
      · rw [if_pos hgt]
      · rw [if_neg hgt]
        exact le_of_not_lt hgt
    · rw [hb]
      simp

theorem cardC6_max : cardC6.max_load_power = 80 := by
  simp [cardC6, DIOTCard.max_load_power, chC6, chC6aux, List.dropLast_concat,
    List.map_replicate, List.sum_replicate]
  norm_num

theorem cardC6_len : cardC6.load_channels.length = 17 := rfl

/-- C6 counterexample: on the full card (16 × 5 W channels plus the 3 W auxiliary,
`max_load_power = 80`), requesting 34 W distributes `34 / 17 = 2` W to each non-aux
channel — the divisor counts the auxiliary channel — instead of the claimed
aux-excluded even share `34 / 16 = 2.125` W. -/
theorem C6_counterexample :
    cardC6.max_load_power = 80
  ∧ set_cards_load_power [("DT02", cardC6)] ["DT02"] [34]
      = .ok ([("DT02", cardC6.set_all_load_power (34 / 17))], [])
  ∧ (cardC6.set_all_load_power (34 / 17)).load_channels
      = List.replicate 16 (chC6.set_load_power (34 / 17)) ++ [chC6aux]
  ∧ (chC6.set_load_power (34 / 17)).load_power = 2
  ∧ (34 : ℚ) / 16 ≠ 2 := by
  refine ⟨cardC6_max, ?_, ?_, ?_, by norm_num⟩
  · have h1 : set_single_card_load_power [("DT02", cardC6)] "DT02" 34
        = .ok ([("DT02", cardC6.set_all_load_power (34 / 17))], false) := by
      rw [set_single_card_load_power_ok [("DT02", cardC6)] "DT02" 34 cardC6 rfl,
        cardC6_max, cardC6_len]
      norm_num [aset, List.find?]
    simp [set_cards_load_power, set_cards_loop, h1]
  · simp [cardC6, DIOTCard.set_all_load_power, List.dropLast_concat,
      List.getLast?_concat, List.map_replicate]
  · have hd : (chC6.set_load_power (34 / 17)).duty_cycle = 26214 := by
      norm_num [chC6, Channel.set_load_power, pyInt]
    unfold Channel.load_power
    rw [hd]
    norm_num [chC6, Channel.set_load_power]

theorem C6_present : ∀ s ∈ ["DT02"], ∃ c, aget [("DT02", cardC6)] s = some c := by
  intro s hs
  rw [List.mem_singleton.mp hs]
  exact ⟨cardC6, rfl⟩

/-- C6 witness: the amended statement evaluated on the spec scenario — requesting
999 W on a full 80 W card. -/
theorem C6_set_cards_load_power_amended_witness :
    ∃ r, set_cards_load_power [("DT02", cardC6)] ["DT02"] [999] = .ok r
      ∧ ∀ q ∈ (["DT02"].zip [(999 : ℚ)]), ∀ card,
          aget [("DT02", cardC6)] q.1 = some card →
          ((if q.2 > card.max_load_power then card.max_load_power else q.2)
              ≤ card.max_load_power)
          ∧ aget r.1 q.1 = some (card.set_all_load_power
              ((if q.2 > card.max_load_power then card.max_load_power else q.2)
                / (card.load_channels.length : ℚ)))
          ∧ (q.1 ∈ r.2 ↔ q.2 > card.max_load_power)
          ∧ (card.set_all_load_power
              ((if q.2 > card.max_load_power then card.max_load_power else q.2)
                / (card.load_channels.length : ℚ))).load_channels
              = card.load_channels.dropLast.map
                  (fun ch => ch.set_load_power
                    ((if q.2 > card.max_load_power then card.max_load_power else q.2)
                      / (card.load_channels.length : ℚ)))
                ++ card.load_channels.getLast?.toList :=
  C6_set_cards_load_power_amended [("DT02", cardC6)] ["DT02"] [999] rfl
    (List.nodup_singleton "DT02") C6_present

/-!  C9.  The call site `report_cards(shutdown_card_on_ot, serials_to_monitor)` in
`monitor` (lines 373-375) binds `serials_to_monitor` to the `elapsed_time` parameter
and leaves `serials = None`, so `report_cards` polls all registered cards. -/

theorem mkMgrRows_elapsed (e : Option El) (cid : String) (v cur : ℚ) (isS : Bool)
    (rates : List (ℕ × ℚ)) :
    ∀ (chans : List ChannelReport) (ix : ℕ),
      ∀ row ∈ mkMgrRows e cid v cur isS rates chans ix, row.elapsed_time = e := by
  intro chans
  induction chans with
  | nil => intro ix row h; exact absurd h (List.not_mem_nil row)
  | cons c tl ih =>
    intro ix row h
    rcases List.mem_cons.mp h with rfl | h2
    · rfl
    · exact ih (ix + 1) row h2

theorem aget_serial_eq (cards : MgrCards)
    (hkeys : ∀ p ∈ cards, p.2.serial_id = p.1) (s : String) (c : DIOTCard)
    (h : aget cards s = some c) : c.serial_id = s := by
  unfold aget at h
  cases hf : cards.find? (fun p => decide (p.1 = s)) with
  | none => rw [hf] at h; simp at h
  | some p =>
    rw [hf] at h
    simp only [Option.map_some', Option.some.injEq] at h
    have hmem := List.mem_of_find?_eq_some hf
    have hpred := List.find?_some hf
    rw [← h, hkeys p hmem]
    exact of_decide_eq_true hpred

theorem mapM_reports_spec (cards : MgrCards)
    (hkeys : ∀ p ∈ cards, p.2.serial_id = p.1) :
    ∀ (sl : List String) (combined : List CardReport),
      sl.mapM (fun s =>
        match aget cards s with
        | some c => Except.ok c.report
        | none => Except.error ("KeyError: " ++ s)) = .ok combined →
      combined.map (·.card_serial) = sl := by
  intro sl
  induction sl with
  | nil =>
    intro combined h
    rw [List.mapM_nil] at h
    injection h with h2
    rw [← h2]
    rfl
  | cons s rest ih =>
    intro combined h
    rw [List.mapM_cons] at h
    obtain ⟨a, hfa, h⟩ := except_bind_ok _ _ _ h
    obtain ⟨as2, hrest, h⟩ := except_bind_ok _ _ _ h
    injection h with h2
    rw [← h2]
    cases hget : aget cards s with
    | none => rw [hget] at hfa; simp at hfa
    | some c =>
      rw [hget] at hfa
      injection hfa with hfa2
      rw [← hfa2]
      simp only [List.map_cons, DIOTCard.report]
      rw [aget_serial_eq cards hkeys s c hget, ih as2 hrest]

theorem report_cards_loop_spec (sdo : Bool) (e : Option El) :
    ∀ (reports : List CardReport) (st : RCState) (r : RCState),
      report_cards_loop sdo e reports st = .ok r →
      r.ot_per_card.length = st.ot_per_card.length + reports.length
      ∧ r.steady_states.map (·.1)
          = st.steady_states.map (·.1) ++ reports.map (·.card_serial)
      ∧ ((∀ row ∈ st.measurements, row.elapsed_time = e) →
          ∀ row ∈ r.measurements, row.elapsed_time = e) := by
  intro reports
  induction reports with
  | nil =>
    intro st r h
    simp only [report_cards_loop] at h
    injection h with h2
    subst h2
    exact ⟨rfl, by simp, fun hy => hy⟩
  | cons rep rest ih =>
    intro st r h
    simp only [report_cards_loop] at h
    obtain ⟨cards1, hc1, h⟩ := except_bind_ok _ _ _ h
    obtain ⟨sr, hsr, h⟩ := except_bind_ok _ _ _ h
    obtain ⟨hlen, hsteady, hrows⟩ := ih _ r h
    refine ⟨?_, ?_, ?_⟩
    · have hlen2 : r.ot_per_card.length
          = (st.ot_per_card ++ [rep.channels.any (·.ot_ev)]).length + rest.length :=
        hlen
      simp only [List.length_append, List.length_cons, List.length_singleton,
        List.length_nil] at hlen2 ⊢
      omega
    · have hsteady2 : r.steady_states.map (·.1)
          = (st.steady_states ++ [(rep.card_serial, sr.1, sr.2)]).map (·.1)
            ++ rest.map (·.card_serial) :=
        hsteady
      rw [hsteady2]
      simp
    · intro hst
      apply hrows
      intro row hrow
      rcases List.mem_append.mp hrow with h1 | h1
      · exact hst row h1
      · exact mkMgrRows_elapsed e rep.card_serial rep.voltage rep.current sr.1 sr.2
          rep.channels 0 row h1

/-- C9: the monitor's sampling cycle (lines 373-375) invokes `report_cards` with
`serials_to_monitor` bound positionally to the `elapsed_time` parameter and the
`serials` parameter left at its default `None`; consequently every registered card of
the crate is polled — one `ot_per_card` entry per registered card and one
`steady_states` entry per registered card id, in registry order, whatever subset
`serials_to_monitor` names — and the serial list itself ends up in the
`elapsed_time` field of every measurement row. -/
theorem C9_monitor_polls_all_cards :
    (∀ (cards : MgrCards) (hist : MHist) (sdo : Bool) (stm : Option (List String)),
        monitor_report_call cards hist sdo stm
          = report_cards cards hist sdo (stm.map El.serials) none)
  ∧ (∀ (cards : MgrCards) (hist : MHist) (sdo : Bool) (stm : Option (List String))
        (r : RCState),
        (∀ p ∈ cards, p.2.serial_id = p.1) →
        monitor_report_call cards hist sdo stm = .ok r →
        r.ot_per_card.length = cards.length
        ∧ r.steady_states.map (·.1) = cards.map (·.1)
        ∧ ∀ row ∈ r.measurements, row.elapsed_time = stm.map El.serials) := by
  refine ⟨fun _ _ _ _ => rfl, ?_⟩
  intro cards hist sdo stm r hkeys h
  unfold monitor_report_call report_cards at h
  simp only [Option.getD_none] at h
  obtain ⟨combined, hmapM, hloop⟩ := except_bind_ok _ _ _ h
  have hserials := mapM_reports_spec cards hkeys (cards.map (·.1)) combined hmapM
  obtain ⟨hlen, hsteady, hrows⟩ :=
    report_cards_loop_spec sdo (stm.map El.serials) combined _ r hloop
  refine ⟨?_, ?_, ?_⟩
  · rw [hlen]
    have := congrArg List.length hserials
    simp only [List.length_map] at this
    simp [this]
  · rw [hsteady, hserials]
    rfl
  · exact hrows (fun row hrow => absurd hrow (List.not_mem_nil row))

/-- C9 witness: one registered card `DT01`, polled through the monitor call site with
`serials_to_monitor = ["DT01"]`: the card is polled and the serial list sits in each
row's `elapsed_time` field. -/
theorem C9_monitor_polls_all_cards_witness :
    rC9.ot_per_card.length = [("DT01", cardC2)].length
      ∧ rC9.steady_states.map (·.1) = [("DT01", cardC2)].map (·.1)
      ∧ ∀ row ∈ rC9.measurements,
          row.elapsed_time = (some ["DT01"] : Option (List String)).map El.serials :=
  C9_monitor_polls_all_cards.2 [("DT01", cardC2)] [] true (some ["DT01"]) rC9
    (by decide) rfl

/-!  C3.  The first sampling cycle of `monitor` iterates the 3-tuple returned by
`report_cards` as if it were a list of report dicts; subscripting the first tuple
element (a list of booleans) with the string key `"card_serial"` raises `TypeError`
before any row is assembled. -/

theorem except_ok_bind {α β : Type} (a : α) (f : α → Except String β) :
    ((Except.ok a : Except String α) >>= f) = f a := rfl

theorem aset_append_of_none {κ α : Type} [DecidableEq κ] (l : List (κ × α)) (k : κ)
    (v : α) (h : l.find? (fun p => decide (p.1 = k)) = none) :
    aset l k v = l ++ [(k, v)] := by
  unfold aset
  rw [h]
  rfl

theorem aget_none_of_keys_lt {α : Type} (l : List (ℕ × α)) (ix : ℕ)
    (h : ∀ q ∈ l, q.1 < ix) : aget l ix = none := by
  unfold aget
  rw [List.find?_eq_none.mpr (fun q hq => by simp [Nat.ne_of_lt (h q hq)])]
  rfl

theorem appendMHistAll_spec (cid : String) (e : El) :
    ∀ (chans : List ChannelReport) (ix : ℕ) (hist : MHist),
      (∀ q ∈ (aget hist cid).getD [], q.2.length = 1 ∧ q.1 < ix) →
      (∀ q ∈ (aget (appendMHistAll cid e chans ix hist) cid).getD [],
          q.2.length = 1 ∧ q.1 < ix + chans.length)
      ∧ (∀ cid2, ¬ cid2 = cid →
          aget (appendMHistAll cid e chans ix hist) cid2 = aget hist cid2) := by
  intro chans
  induction chans with
  | nil =>
    intro ix hist h
    refine ⟨fun q hq => ?_, fun _ _ => rfl⟩
    obtain ⟨h1, h2⟩ := h q hq
    exact ⟨h1, by omega⟩
  | cons ch rest ih =>
    intro ix hist h
    have hnone : aget ((aget hist cid).getD []) ix = none :=
      aget_none_of_keys_lt _ ix (fun q hq => (h q hq).2)
    have hset : aset ((aget hist cid).getD []) ix
        (dequeAppend MGR_HISTORY_MAXLEN ((aget ((aget hist cid).getD []) ix).getD [])
          (e, ch.temperature))
        = (aget hist cid).getD [] ++ [(ix, [(e, ch.temperature)])] := by
      rw [show ((aget ((aget hist cid).getD []) ix).getD []) = [] from by
        rw [hnone]; rfl]
      exact aset_append_of_none _ ix _ (by
        apply List.find?_eq_none.mpr
        intro q hq
        simp [Nat.ne_of_lt (h q hq).2])
    have hmid : aget (mhistAppend hist cid ix (e, ch.temperature)) cid
        = some ((aget hist cid).getD [] ++ [(ix, [(e, ch.temperature)])]) := by
      show aget (aset hist cid (aset ((aget hist cid).getD []) ix
          (dequeAppend MGR_HISTORY_MAXLEN
            ((aget ((aget hist cid).getD []) ix).getD []) (e, ch.temperature)))) cid
        = some ((aget hist cid).getD [] ++ [(ix, [(e, ch.temperature)])])
      rw [hset]
      exact aget_aset_self hist cid _
    have hinv : ∀ q ∈ (aget (mhistAppend hist cid ix (e, ch.temperature)) cid).getD [],
        q.2.length = 1 ∧ q.1 < ix + 1 := by
      rw [hmid]
      intro q hq
      rcases List.mem_append.mp hq with h1 | h1
      · obtain ⟨ha, hb⟩ := h q h1
        exact ⟨ha, by omega⟩
      · rw [List.mem_singleton.mp h1]
        exact ⟨rfl, by omega⟩
    obtain ⟨ha, hb⟩ := ih (ix + 1) (mhistAppend hist cid ix (e, ch.temperature)) hinv
    refine ⟨fun q hq => ?_, fun cid2 hcid2 => ?_⟩
    · obtain ⟨h1, h2⟩ := ha q hq
      exact ⟨h1, by simp only [List.length_cons]; omega⟩
    · show aget (appendMHistAll cid e rest (ix + 1)
          (mhistAppend hist cid ix (e, ch.temperature))) cid2 = aget hist cid2
      rw [hb cid2 hcid2]
      show aget (aset hist cid (aset ((aget hist cid).getD []) ix
          (dequeAppend MGR_HISTORY_MAXLEN
            ((aget ((aget hist cid).getD []) ix).getD []) (e, ch.temperature)))) cid2
        = aget hist cid2
      exact aget_aset_ne hist cid cid2 _ hcid2

theorem historyComplete_shallow (lst : List (ℕ × List (El × ℚ)))
    (h : ∀ q ∈ lst, q.2.length = 1) :
    (historyComplete lst = .ok false ∧ lst ≠ [])
      ∨ (historyComplete lst = .ok true ∧ lst = []) := by
  cases lst with
  | nil => exact Or.inr ⟨rfl, rfl⟩
  | cons q tl =>
    refine Or.inl ⟨?_, by simp⟩
    have h1 : q.2.length = 1 := h q (List.mem_cons_self q tl)
    cases q with
    | mk ix entries =>
      simp only [historyComplete]
      rw [if_pos (by simp at h1; omega)]

theorem check_steady_ok_of_shallow (hist : MHist) (cid : String)
    (h : ∀ q ∈ (aget hist cid).getD [], q.2.length = 1) :
    ∃ res, check_steady_state_mgr hist cid = .ok res := by
  unfold check_steady_state_mgr
  cases hget : aget hist cid with
  | none => exact ⟨(false, []), rfl⟩
  | some lst =>
    rw [hget] at h
    simp only [Option.getD_some] at h
    rcases historyComplete_shallow lst h with ⟨hc, -⟩ | ⟨hc, hnil⟩
    · refine ⟨(false, []), ?_⟩
      dsimp only
      rw [hc, except_ok_bind]
      rfl
    · subst hnil
      exact ⟨(true, []), rfl⟩

theorem report_cards_loop_ok (sdo : Bool) (e : Option El) :
    ∀ (reports : List CardReport) (st : RCState),
      ((reports.map (·.card_serial)).Nodup) →
      (∀ rep ∈ reports, aget st.hist rep.card_serial = none) →
      (∀ rep ∈ reports, (aget st.cards rep.card_serial).isSome) →
      ∃ r, report_cards_loop sdo e reports st = .ok r := by
  intro reports
  induction reports with
  | nil => intro st _ _ _; exact ⟨st, rfl⟩
  | cons rep rest ih =>
    intro st hnd hfresh hcards
    have hc1 := hcards rep (List.mem_cons_self rep rest)
    obtain ⟨c, hc⟩ := Option.isSome_iff_exists.mp hc1
    have hfr := hfresh rep (List.mem_cons_self rep rest)
    have hrestne : ∀ rep2 ∈ rest, ¬ rep2.card_serial = rep.card_serial := by
      intro rep2 hrep2 heq
      have hnotin := (List.nodup_cons.mp hnd).1
      have hmem := List.mem_map_of_mem (·.card_serial) hrep2
      simp only [heq] at hmem
      exact hnotin hmem
    obtain ⟨cards1, hshut1, hpres1⟩ :
        ∃ cards1, shutdown_on_ot st.cards sdo rep.card_serial
            (rep.channels.any (·.ot_ev)) = .ok cards1
          ∧ ∀ s, ¬ s = rep.card_serial → aget cards1 s = aget st.cards s := by
      unfold shutdown_on_ot
      cases hcond : (sdo && rep.channels.any (·.ot_ev))
      · simp only [Bool.false_eq_true, if_false]
        exact ⟨st.cards, rfl, fun _ _ => rfl⟩
      · simp only [if_true]
        rw [hc]
        exact ⟨_, rfl, fun s hs => aget_aset_ne st.cards rep.card_serial s _ hs⟩
    cases e with
    | none =>
      obtain ⟨res, hres⟩ := check_steady_ok_of_shallow st.hist rep.card_serial
        (by rw [hfr]; intro q hq; exact absurd hq (List.not_mem_nil q))
      obtain ⟨r, hr⟩ := ih
        { cards := cards1, hist := st.hist,
          ot_per_card := st.ot_per_card ++ [rep.channels.any (·.ot_ev)],
          measurements := st.measurements
            ++ mkMgrRows none rep.card_serial rep.voltage rep.current res.1 res.2
                rep.channels 0,
          steady_states := st.steady_states ++ [(rep.card_serial, res.1, res.2)] }
        (List.nodup_cons.mp hnd).2
        (fun rep2 h2 => hfresh rep2 (List.mem_cons_of_mem rep h2))
        (fun rep2 h2 => by
          rw [hpres1 rep2.card_serial (hrestne rep2 h2)]
          exact hcards rep2 (List.mem_cons_of_mem rep h2))
      refine ⟨r, ?_⟩
      simp only [report_cards_loop]
      rw [hshut1, except_ok_bind, hres, except_ok_bind]
      exact hr
    | some ev =>
      obtain ⟨hall, hother⟩ := appendMHistAll_spec rep.card_serial ev rep.channels 0
        st.hist (by rw [hfr]; intro q hq; exact absurd hq (List.not_mem_nil q))
      obtain ⟨res, hres⟩ := check_steady_ok_of_shallow
        (appendMHistAll rep.card_serial ev rep.channels 0 st.hist) rep.card_serial
        (fun q hq => (hall q hq).1)
      obtain ⟨r, hr⟩ := ih
        { cards := cards1,
          hist := appendMHistAll rep.card_serial ev rep.channels 0 st.hist,
          ot_per_card := st.ot_per_card ++ [rep.channels.any (·.ot_ev)],
          measurements := st.measurements
            ++ mkMgrRows (some ev) rep.card_serial rep.voltage rep.current res.1
                res.2 rep.channels 0,
          steady_states := st.steady_states ++ [(rep.card_serial, res.1, res.2)] }
        (List.nodup_cons.mp hnd).2
        (fun rep2 h2 => by
          rw [hother rep2.card_serial (hrestne rep2 h2)]
          exact hfresh rep2 (List.mem_cons_of_mem rep h2))
        (fun rep2 h2 => by
          rw [hpres1 rep2.card_serial (hrestne rep2 h2)]
          exact hcards rep2 (List.mem_cons_of_mem rep h2))
      refine ⟨r, ?_⟩
      simp only [report_cards_loop]
      rw [hshut1, except_ok_bind, hres, except_ok_bind]
      exact hr

theorem aget_isSome_of_key (cards : MgrCards) (s : String)
    (h : s ∈ cards.map (·.1)) : (aget cards s).isSome = true := by
  obtain ⟨p, hp, hps⟩ := List.mem_map.mp h
  have hfind : (cards.find? (fun q => decide (q.1 = s))).isSome = true :=
    List.find?_isSome.mpr ⟨p, hp, by simp [hps]⟩
  obtain ⟨q, hq⟩ := Option.isSome_iff_exists.mp hfind
  unfold aget
  rw [hq]
  rfl

theorem mapM_reports_ok (cards : MgrCards) :
    ∀ sl : List String, (∀ s ∈ sl, (aget cards s).isSome = true) →
      ∃ combined, sl.mapM (fun s =>
        match aget cards s with
        | some c => Except.ok c.report
        | none => Except.error ("KeyError: " ++ s)) = .ok combined := by
  intro sl
  induction sl with
  | nil => exact fun _ => ⟨[], rfl⟩
  | cons s rest ih =>
    intro hall
    obtain ⟨c, hc⟩ := Option.isSome_iff_exists.mp (hall s (List.mem_cons_self s rest))
    obtain ⟨comb, hcomb⟩ := ih (fun s2 h2 => hall s2 (List.mem_cons_of_mem s h2))
    refine ⟨c.report :: comb, ?_⟩
    rw [List.mapM_cons, hc]
    dsimp only
    rw [except_ok_bind, hcomb, except_ok_bind]
    rfl

theorem report_cards_fresh_ok (cards : MgrCards) (sdo : Bool) (e : Option El)
    (hkeys : ∀ p ∈ cards, p.2.serial_id = p.1)
    (hnodup : (cards.map (·.1)).Nodup) :
    ∃ r, report_cards cards [] sdo e none = .ok r := by
  obtain ⟨combined, hcomb⟩ := mapM_reports_ok cards (cards.map (·.1))
    (fun s hs => aget_isSome_of_key cards s hs)
  have hserials := mapM_reports_spec cards hkeys (cards.map (·.1)) combined hcomb
  obtain ⟨r, hr⟩ := report_cards_loop_ok sdo e combined
    { cards := cards, hist := [], ot_per_card := [], measurements := [],
      steady_states := [] }
    (by rw [hserials]; exact hnodup)
    (fun rep _ => rfl)
    (fun rep hrep => by
      apply aget_isSome_of_key
      rw [← hserials]
      exact List.mem_map_of_mem (·.card_serial) hrep)
  refine ⟨r, ?_⟩
  unfold report_cards
  simp only [Option.getD_none]
  rw [hcomb, except_ok_bind]
  exact hr

/-- C3: on a freshly constructed crate manager with at least one registered card (its
dict keys matching the cards' serials), the first executed sampling cycle of
`monitor` raises a `TypeError` before any measurement row is assembled or written:
`report_cards` itself succeeds and returns its 3-tuple, but the `for report in
reports` loop subscripts the tuple's first element — the `ot_per_card` list — with
the string key `"card_serial"`. -/
theorem C3_monitor_first_cycle_raises (cards : MgrCards) (sdo : Bool)
    (stm : Option (List String)) (_hne : cards ≠ [])
    (hkeys : ∀ p ∈ cards, p.2.serial_id = p.1)
    (hnodup : (cards.map (·.1)).Nodup) :
    (∃ st, report_cards cards [] sdo (stm.map El.serials) none = .ok st)
    ∧ monitor_first_cycle cards [] sdo stm
        = .error "TypeError: list indices must be integers or slices, not str" := by
  obtain ⟨r, hr⟩ := report_cards_fresh_ok cards sdo (stm.map El.serials) hkeys hnodup
  refine ⟨⟨r, hr⟩, ?_⟩
  unfold monitor_first_cycle
  rw [hr, except_ok_bind]
  rfl

/-- C3 witness: the one-card crate `DT01`, polled through the monitor's first cycle. -/
theorem C3_monitor_first_cycle_raises_witness :
    (∃ st, report_cards [("DT01", cardC2)] [] true
        ((some ["DT01"] : Option (List String)).map El.serials) none = .ok st)
    ∧ monitor_first_cycle [("DT01", cardC2)] [] true (some ["DT01"])
        = .error "TypeError: list indices must be integers or slices, not str" :=
  C3_monitor_first_cycle_raises [("DT01", cardC2)] true (some ["DT01"])
    (List.cons_ne_nil _ _) (by decide) (by decide)
